import Mathlib

/-!
DHT22_Clone_ESP32: decoding of the DHT22 pulse train.

A shallow embedding of `src/DHT22_Clone_ESP32.cpp` (`DHT22Clone::read` and
`DHT22Clone::parseTemperature`), followed by theorems about it.

Conventions of the embedding.

* `uint8_t` and `uint16_t` values are natural numbers, with the reduction
  modulo `2 ^ 8` or `2 ^ 16` written wherever the C code can wrap.
* The durations of an RMT symbol are 15-bit bit-fields, so their sum, which the
  code computes in `int` and stores in a `uint32_t`, cannot wrap; it is the
  plain sum of natural numbers.
* `float` is IEEE binary32 with round-to-nearest-even.  Every `float` the code
  computes is an integer of magnitude below `2 ^ 16` times the constant `0.1f`,
  or the constant `0` or `-40.0f`; all of them are integer multiples of
  `2⁻²⁷`.  A `float` is therefore held exactly, as its numerator over `2 ^ 27`
  (`F32.units`), and the one rounding the code performs, that of the product
  with `0.1f = 13421773 · 2⁻²⁷`, is `roundMant24`.  The two zeros of binary32
  are one value here, as they are for `>=`.
* The peripheral (RMT channel, queue, GPIO) is outside the code under study;
  what it hands to `read` is a `Capture`.
-/

namespace DHT22

/-! ## Binary32 values -/

/-- A binary32 value of the program, held exactly: the value is
`units × 2⁻²⁷`. -/
structure F32 where
  units : Int
deriving DecidableEq, Repr

/-- Number of low bits a natural number has to lose to fit the 24-bit
significand of binary32.  The first argument bounds the search and is always
large enough when it is the number itself. -/
def excessBits : Nat → Nat → Nat
  | 0, _ => 0
  | fuel + 1, N => if N < 2 ^ 24 then 0 else excessBits fuel (N / 2) + 1

/-- Rounding of a natural number to 24 significant bits, to nearest, ties to
even: the rounding of binary32 on a significand of any length. -/
def roundMant24 (N : Nat) : Nat :=
  let s := excessBits N N
  let m := N / 2 ^ s
  let r := N % 2 ^ s
  let h := 2 ^ (s - 1)
  if s = 0 then N
  else if r < h then m * 2 ^ s
  else if h < r then (m + 1) * 2 ^ s
  else if m % 2 = 0 then m * 2 ^ s
  else (m + 1) * 2 ^ s

namespace F32

/-- The binary32 value of an integer constant such as `0` or `-40.0f`. -/
def ofInt (k : Int) : F32 := ⟨k * 2 ^ 27⟩

/-- Unary minus of binary32 (exact). -/
def neg (x : F32) : F32 := ⟨-x.units⟩

/-- The C expression `n * 0.1f` for an integer `n` (exactly representable in
binary32, as every integer of this program is): the product with
`0.1f = 13421773 × 2⁻²⁷`, rounded to binary32. -/
def mulTenth (n : Int) : F32 := ⟨Int.sign n * (roundMant24 (n.natAbs * 13421773) : Nat)⟩

/-- The C comparison `x >= y` on binary32. -/
def ge (x y : F32) : Bool := decide (y.units ≤ x.units)

/-- The decimal reading of a binary32 value at the resolution of the sensor:
the integer number of tenths nearest to it. -/
def toTenths (x : F32) : Int := (10 * x.units + 2 ^ 26) / 2 ^ 27

end F32

/-! ## Data types of the driver -/

/-- Sensor variant, `DHT22Clone_Type` of the header. -/
inductive DHT22Clone_Type where
  | DHT22_CLONE
  | DHT22_ORIGINAL
  | DHT22_AUTO
deriving DecidableEq, Repr

/-- Modelled from the spec: the header `DHT22_Clone_ESP32.h` is not among the
sources; these are the error kinds the code assigns and `errorToString`
enumerates. -/
inductive DHT22Clone_Error where
  | DHT22_OK
  | DHT22_DRIVER
  | DHT22_TIMEOUT
  | DHT22_NACK
  | DHT22_BAD_DATA
  | DHT22_CHECKSUM
  | DHT22_UNDERFLOW
  | DHT22_OVERFLOW
deriving DecidableEq, Repr

open DHT22Clone_Type DHT22Clone_Error

/-- Modelled from the spec: `DHT22Clone_Result` of the missing header, the
record `read` returns, with its fields in the order of the initialiser
`{0, 0, DHT22_OK, {0}}`. -/
structure DHT22Clone_Result where
  temperature : F32
  humidity : F32
  error : DHT22Clone_Error
  raw : List Nat
deriving DecidableEq, Repr

/-- The members of a `DHT22Clone` object. -/
structure DHT22Clone where
  _pin : Nat
  _type : DHT22Clone_Type
  _lastError : DHT22Clone_Error
  _temperature : F32
  _humidity : F32
deriving DecidableEq, Repr

/-- One RMT symbol: the two durations of a low/high pair, in microseconds at
the configured resolution of 1 MHz (the level bits are not read). -/
structure rmt_symbol_word_t where
  duration0 : Nat
  duration1 : Nat
deriving DecidableEq, Repr

/-- What the receive-done callback delivers: the number of captured symbols
and the buffer they are in, read by index as the code does through the pointer
`received_symbols`. -/
structure rmt_rx_done_event_data_t where
  received_symbols : Nat → rmt_symbol_word_t
  num_symbols : Nat

/-- The outcome of the capture, as far as `read` branches on it. -/
inductive Capture where
  /-- The call of `rmt_new_rx_channel` failed. -/
  | newChannelFailed
  /-- The call of `rmt_enable` or of `rmt_receive` failed. -/
  | receiveFailed
  /-- The call of `xQueueReceive` returned nothing within 100 ms. -/
  | timedOut
  /-- The call of `xQueueReceive` delivered the data of the capture. -/
  | received (rx_data : rmt_rx_done_event_data_t)

/-! ## The code -/

/-- The constructor `DHT22Clone::DHT22Clone`. -/
def DHT22Clone.new (pin : Nat) (type : DHT22Clone_Type) : DHT22Clone :=
  { _pin := pin, _type := type, _lastError := DHT22_OK,
    _temperature := F32.ofInt 0, _humidity := F32.ofInt 0 }

/-- The cast `(int16_t)raw` of a `uint16_t`. -/
def toInt16 (raw : Nat) : Int :=
  if raw % 65536 < 32768 then ((raw % 65536 : Nat) : Int) else ((raw % 65536 : Nat) : Int) - 65536

/-- The method `DHT22Clone::parseTemperature`, with the member `_type` as its
first argument. -/
def parseTemperature (_type : DHT22Clone_Type) (byte2 byte3 : Nat) : F32 :=
  let raw : Nat := ((byte2 <<< 8) ||| byte3) % 65536
  match _type with
  | DHT22_CLONE => F32.mulTenth (toInt16 raw)
  | DHT22_ORIGINAL =>
    if raw &&& 0x8000 ≠ 0 then F32.neg (F32.mulTenth ((raw &&& 0x7FFF : Nat) : Int))
    else F32.mulTenth (raw : Int)
  | DHT22_AUTO =>
    if byte2 = 0xFF then F32.mulTenth (toInt16 raw)
    else if raw &&& 0x8000 ≠ 0 then
      let temp := F32.neg (F32.mulTenth ((raw &&& 0x7FFF : Nat) : Int))
      if F32.ge temp (F32.ofInt (-40)) then temp
      else F32.mulTenth (toInt16 raw)
    else F32.mulTenth (raw : Int)

/-- The sum `cur[i].duration0 + cur[i].duration1`. -/
def pulseAt (cur : Nat → rmt_symbol_word_t) (i : Nat) : Nat :=
  (cur i).duration0 + (cur i).duration1

/-- One iteration of the loop `for (uint8_t i = 0; i < 40; i++)` of `read`, on
the pair of `data` and `result.error`. -/
def decodeStep (cur : Nat → rmt_symbol_word_t) (st : List Nat × DHT22Clone_Error) (i : Nat) :
    List Nat × DHT22Clone_Error :=
  let pulse := pulseAt cur (i + 1)
  if 55 < pulse ∧ pulse < 145 then
    let data := st.1.set (i / 8) ((st.1.getD (i / 8) 0 <<< 1) % 256)
    if 110 < pulse then (data.set (i / 8) (data.getD (i / 8) 0 ||| 1), st.2)
    else (data, st.2)
  else (st.1, DHT22_BAD_DATA)

/-- The whole loop of `read`, from `data = {0}` and `result.error = DHT22_OK`. -/
def decodeBits (cur : Nat → rmt_symbol_word_t) : List Nat × DHT22Clone_Error :=
  (List.range 40).foldl (decodeStep cur) ([0, 0, 0, 0, 0], DHT22_OK)

/-- The branch of `read` taken when the queue delivered `rx_data`: validation,
bit decoding, checksum, and parsing. -/
def decodeSymbols (_type : DHT22Clone_Type) (rx_data : rmt_rx_done_event_data_t) :
    DHT22Clone_Result :=
  let result : DHT22Clone_Result :=
    { temperature := F32.ofInt 0, humidity := F32.ofInt 0, error := DHT22_OK, raw := [0, 0, 0, 0, 0] }
  let len := rx_data.num_symbols
  let cur := rx_data.received_symbols
  let pulse := pulseAt cur 0
  if len < 41 then { result with error := DHT22_UNDERFLOW }
  else if 42 < len then { result with error := DHT22_OVERFLOW }
  else if pulse < 130 ∨ 180 < pulse then { result with error := DHT22_NACK }
  else
    let decoded := decodeBits cur
    let data := decoded.1
    let result := { result with error := decoded.2, raw := data }
    if result.error = DHT22_OK then
      let checksum := (data.getD 0 0 + data.getD 1 0 + data.getD 2 0 + data.getD 3 0) % 256
      if data.getD 4 0 = checksum then
        { result with
          humidity := F32.mulTenth ((((data.getD 0 0 <<< 8) ||| data.getD 1 0 : Nat)) : Int)
          temperature := parseTemperature _type (data.getD 2 0) (data.getD 3 0) }
      else { result with error := DHT22_CHECKSUM }
    else result

/-- The method `DHT22Clone::read`: the returned record and the object after
the call. -/
def read (self : DHT22Clone) (capture : Capture) : DHT22Clone_Result × DHT22Clone :=
  let result : DHT22Clone_Result :=
    { temperature := F32.ofInt 0, humidity := F32.ofInt 0, error := DHT22_OK, raw := [0, 0, 0, 0, 0] }
  match capture with
  | Capture.newChannelFailed =>
    let result := { result with error := DHT22_DRIVER }
    (result, { self with _lastError := result.error })
  | Capture.receiveFailed =>
    let result := { result with error := DHT22_DRIVER }
    (result, { self with _lastError := result.error })
  | Capture.timedOut =>
    let result := { result with error := DHT22_TIMEOUT }
    let self := { self with _lastError := result.error }
    (result, if result.error = DHT22_OK then
      { self with _temperature := result.temperature, _humidity := result.humidity } else self)
  | Capture.received rx_data =>
    let result := decodeSymbols self._type rx_data
    let self := { self with _lastError := result.error }
    (result, if result.error = DHT22_OK then
      { self with _temperature := result.temperature, _humidity := result.humidity } else self)

/-! ## Pulse trains used as concrete inputs -/

/-- The pulse train whose captured symbols are the given list; the buffer
beyond them holds zero durations. -/
def trainOfList (l : List rmt_symbol_word_t) : rmt_rx_done_event_data_t :=
  { received_symbols := fun i => l.getD i ⟨0, 0⟩, num_symbols := l.length }

/-- The 8 bits of a byte, most significant first. -/
def bitsOfByte (b : Nat) : List Bool :=
  (List.range 8).map fun j => b.testBit (7 - j)

/-- A sensor transaction carrying the given bytes: an acknowledgment pair of
80 + 70 microseconds, then per bit a low of 50 and a high of 26 (bit 0) or 70
(bit 1), then `extra` trailing pairs. -/
def encodeTrain (bytes : List Nat) (extra : Nat) : rmt_rx_done_event_data_t :=
  trainOfList (⟨80, 70⟩ ::
    ((bytes.flatMap bitsOfByte).map fun b => (⟨50, if b then 70 else 26⟩ : rmt_symbol_word_t))
      ++ List.replicate extra ⟨50, 0⟩)

/-! ## The two vendor encodings of a temperature -/

/-- The Clone encoding of a temperature of `t` tenths of a degree: the 16-bit
two's complement of `t`. -/
def encodeClone (t : Int) : Nat := (t % 65536).toNat

/-- The Original encoding of a temperature of `t` tenths of a degree: bit 15 is
the sign, bits 14 to 0 hold the magnitude of `t`. -/
def encodeOriginal (t : Int) : Nat := if t < 0 then 32768 + t.natAbs else t.natAbs

/-! ## The loop of `read`, byte by byte -/

/-- The pulse train in `cur` carries the five bytes `bytes`, most significant
bit first: for `i = 0..39` the pair at index `i + 1` lasts more than 55 and at
most 110 when bit `i` is 0, and more than 110 and less than 145 when it is 1. -/
def Encodes (cur : Nat → rmt_symbol_word_t) (bytes : List Nat) : Prop :=
  ∀ i : Nat, i < 40 →
    if (bytes.getD (i / 8) 0).testBit (7 - i % 8) then
      110 < pulseAt cur (i + 1) ∧ pulseAt cur (i + 1) < 145
    else 55 < pulseAt cur (i + 1) ∧ pulseAt cur (i + 1) ≤ 110

instance (cur : Nat → rmt_symbol_word_t) (bytes : List Nat) : Decidable (Encodes cur bytes) := by
  unfold Encodes; infer_instance

/-- The bit a payload pulse stands for: the test `pulse > 110` of the loop on
the pair at index `i + 1`. -/
def pulseBit (cur : Nat → rmt_symbol_word_t) (i : Nat) : Nat :=
  if 110 < pulseAt cur (i + 1) then 1 else 0

/-- The test `pulse > 55 && pulse < 145` of the loop on the pair at index
`i + 1`. -/
def pulseValid (cur : Nat → rmt_symbol_word_t) (i : Nat) : Prop :=
  55 < pulseAt cur (i + 1) ∧ pulseAt cur (i + 1) < 145

instance (cur : Nat → rmt_symbol_word_t) (i : Nat) : Decidable (pulseValid cur i) := by
  unfold pulseValid; infer_instance

/-- The effect of one loop iteration on the byte it addresses. -/
def stepByte (cur : Nat → rmt_symbol_word_t) (a : Nat) (i : Nat) : Nat :=
  let pulse := pulseAt cur (i + 1)
  if 55 < pulse ∧ pulse < 145 then
    if 110 < pulse then ((a <<< 1) % 256) ||| 1 else (a <<< 1) % 256
  else a

/-- The effect of one loop iteration on `result.error`. -/
def stepError (cur : Nat → rmt_symbol_word_t) (e : DHT22Clone_Error) (i : Nat) : DHT22Clone_Error :=
  let pulse := pulseAt cur (i + 1)
  if 55 < pulse ∧ pulse < 145 then e else DHT22_BAD_DATA

/-- Byte `k` of `data` after the loop, as the 8 iterations that address it. -/
def byteOf (cur : Nat → rmt_symbol_word_t) (k : Nat) : Nat :=
  (List.range 8).foldl (fun a j => stepByte cur a (8 * k + j)) 0

/-- The value of `result.error` after the loop. -/
def errorOf (cur : Nat → rmt_symbol_word_t) : DHT22Clone_Error :=
  (List.range 40).foldl (stepError cur) DHT22_OK

/-! ## Sequences of reads, and a variant of Auto -/

/-- The object after a sequence of calls of `read`, one per capture. -/
def runReads (self : DHT22Clone) (captures : List Capture) : DHT22Clone :=
  captures.foldl (fun s c => (read s c).2) self

/-- The cached measurements are those of the constructor. -/
def CacheInitial (self : DHT22Clone) : Prop :=
  self._temperature = F32.ofInt 0 ∧ self._humidity = F32.ofInt 0

/-- The cached measurements are those of the successful reading `result`. -/
def CacheFromRead (self : DHT22Clone) (result : DHT22Clone_Result) : Prop :=
  result.error = DHT22_OK ∧ self._temperature = result.temperature ∧
    self._humidity = result.humidity

/-- The Auto branch of `parseTemperature` as it reads once the test
`byte2 == 0xFF` is removed: the Original decoding is tried on every word with
bit 15 set. -/
def parseTemperatureAutoWithoutFF (byte2 byte3 : Nat) : F32 :=
  let raw : Nat := ((byte2 <<< 8) ||| byte3) % 65536
  if raw &&& 0x8000 ≠ 0 then
    let temp := F32.neg (F32.mulTenth ((raw &&& 0x7FFF : Nat) : Int))
    if F32.ge temp (F32.ofInt (-40)) then temp
    else F32.mulTenth (toInt16 raw)
  else F32.mulTenth (raw : Int)

/-! ## Rounding: error bounds -/

/-- A positive count of excess bits `s` comes with `2 ^ (s + 23) ≤ N`. -/
theorem excessBits_spec (fuel N : Nat) :
    excessBits fuel N = 0 ∨ 2 ^ excessBits fuel N * 2 ^ 23 ≤ N := by
  induction fuel generalizing N with
  | zero => left; rfl
  | succ f ih =>
    unfold excessBits
    by_cases h : N < 2 ^ 24
    · left; rw [if_pos h]
    · right
      rw [if_neg h]
      rcases ih (N / 2) with h0 | h1
      · rw [h0]; norm_num at h ⊢; omega
      · rw [pow_succ]
        have := Nat.div_mul_le_self N 2
        nlinarith

/-- Rounding to 24 bits moves a number by at most its `2 ^ 24`-th part. -/
theorem roundMant24_bounds (N : Nat) :
    (2 ^ 24 - 1) * N ≤ 2 ^ 24 * roundMant24 N ∧ 2 ^ 24 * roundMant24 N ≤ (2 ^ 24 + 1) * N := by
  unfold roundMant24
  rcases excessBits_spec N N with h0 | h1
  · simp only [h0]; norm_num; omega
  · generalize excessBits N N = s at h1
    by_cases hs : s = 0
    · simp only [hs]; norm_num; omega
    · obtain ⟨t, rfl⟩ : ∃ t, s = t + 1 := ⟨s - 1, by omega⟩
      simp only [Nat.add_sub_cancel, Nat.succ_ne_zero, if_false]
      have hP : 2 ^ (t + 1) = 2 * 2 ^ t := by rw [pow_succ]; ring
      have hdm := Nat.div_add_mod N (2 ^ (t + 1))
      have hr := Nat.mod_lt N (Nat.pos_pow_of_pos (t+1) (by norm_num : 0 < 2))
      rw [mul_comm] at hdm
      have e1 : (N / 2 ^ (t + 1) + 1) * 2 ^ (t + 1) = N / 2 ^ (t + 1) * 2 ^ (t + 1) + 2 ^ (t + 1) := by ring
      rw [e1]
      generalize N / 2 ^ (t + 1) * 2 ^ (t + 1) = A at *
      generalize N % 2 ^ (t + 1) = r at *
      generalize N / 2 ^ (t + 1) = m at *
      rw [hP] at h1 hr ⊢
      generalize 2 ^ t = h at *
      norm_num at h1 ⊢
      split_ifs <;> omega

/-! ## The product with `0.1f` -/

/-- Rounding is symmetric: `-(n * 0.1f) = (-n) * 0.1f`. -/
theorem F32.neg_mulTenth (n : Int) : F32.neg (F32.mulTenth n) = F32.mulTenth (-n) := by
  simp [F32.neg, F32.mulTenth, Int.sign_neg]

/-- The product with `0.1f` of a natural number. -/
theorem F32.mulTenth_units_of_nonneg (m : Nat) :
    (F32.mulTenth (m : Int)).units = (roundMant24 (m * 13421773) : Nat) := by
  rcases Nat.eq_zero_or_pos m with h | h
  · subst h; simp [F32.mulTenth, roundMant24, excessBits]
  · have : Int.sign (m : Int) = 1 := Int.sign_eq_one_of_pos (by exact_mod_cast h)
    simp [F32.mulTenth, this]

/-- The nearest tenth of `±m * 0.1f` is `±m`, for 16-bit `m`. -/
theorem F32.toTenths_mulTenth_nat (m : Nat) (hm : m < 65536) :
    (F32.mulTenth (m : Int)).toTenths = m ∧ (F32.mulTenth (-(m : Int))).toTenths = -(m : Int) := by
  have hb := roundMant24_bounds (m * 13421773)
  have hu := F32.mulTenth_units_of_nonneg m
  have hn : (F32.mulTenth (-(m : Int))).units = -((roundMant24 (m * 13421773) : Nat) : Int) := by
    rw [← F32.neg_mulTenth]; simp [F32.neg, hu]
  unfold F32.toTenths
  rw [hu, hn]
  generalize roundMant24 (m * 13421773) = R at hb
  norm_num at hb ⊢
  constructor <;> omega

/-- The nearest tenth of `v * 0.1f` is `v`, for every integer the program multiplies. -/
theorem F32.toTenths_mulTenth (v : Int) (hlo : -65536 < v) (hhi : v < 65536) :
    (F32.mulTenth v).toTenths = v := by
  rcases Int.le_total 0 v with h | h
  · obtain ⟨m, rfl⟩ := Int.eq_ofNat_of_zero_le h
    exact (F32.toTenths_mulTenth_nat m (by omega)).1
  · obtain ⟨m, hm⟩ := Int.eq_ofNat_of_zero_le (Int.neg_nonneg_of_nonpos h)
    have hv : v = -(m : Int) := by omega
    subst hv
    exact (F32.toTenths_mulTenth_nat m (by omega)).2

/-- The comparison `-(m * 0.1f) >= -40.0f` holds exactly for `m ≤ 400`. -/
theorem F32.mulTenth_ge_neg40 (m : Nat) (hm : m < 65536) :
    F32.ge (F32.neg (F32.mulTenth (m : Int))) (F32.ofInt (-40)) = true ↔ m ≤ 400 := by
  have hb := roundMant24_bounds (m * 13421773)
  have h400 : roundMant24 (400 * 13421773) = 5368709120 := by decide
  simp only [F32.ge, F32.neg, F32.ofInt, F32.mulTenth_units_of_nonneg, decide_eq_true_eq]
  by_cases h : m = 400
  · subst h; rw [h400]; norm_num
  · generalize roundMant24 (m * 13421773) = R at hb
    norm_num at hb ⊢
    omega

/-! ## The temperature word -/

/-- The word made of a high part and a low byte. -/
theorem shift_or_eq (hi lo : Nat) (h : lo < 256) : (hi <<< 8) ||| lo = 256 * hi + lo := by
  have h8 := Nat.mul_add_lt_is_or (i := 8) (b := lo) (by norm_num; exact h) hi
  rw [Nat.shiftLeft_eq, Nat.mul_comm hi, ← h8]

/-- The value of `raw` in `parseTemperature`. -/
theorem raw_eq (byte2 byte3 : Nat) (h2 : byte2 < 256) (h3 : byte3 < 256) :
    ((byte2 <<< 8) ||| byte3) % 65536 = 256 * byte2 + byte3 := by
  rw [shift_or_eq byte2 byte3 h3]
  omega

/-- The test `raw & 0x8000` on a 16-bit word. -/
theorem and_sign_ne_zero (raw : Nat) (h : raw < 65536) : raw &&& 0x8000 ≠ 0 ↔ 32768 ≤ raw := by
  have e : (0x8000 : Nat) = 2 ^ 15 := by norm_num
  rw [e, Nat.and_two_pow, Nat.testBit_to_div_mod]
  by_cases hc : raw / 2 ^ 15 % 2 = 1
  · simp only [hc, decide_True, Bool.toNat_true]; norm_num at hc ⊢; omega
  · simp only [hc, decide_False, Bool.toNat_false]; norm_num at hc ⊢; omega

/-- The mask `raw & 0x7FFF`. -/
theorem and_magnitude (raw : Nat) : raw &&& 0x7FFF = raw % 32768 := by
  have e : (0x7FFF : Nat) = 2 ^ 15 - 1 := by norm_num
  rw [e, Nat.and_pow_two_sub_one_eq_mod]

/-- The cast to `int16_t` of a 16-bit word. -/
theorem toInt16_eq (raw : Nat) (h : raw < 65536) :
    toInt16 raw = if raw < 32768 then (raw : Int) else (raw : Int) - 65536 := by
  unfold toInt16
  rw [Nat.mod_eq_of_lt h]

/-- The result of `parseTemperature` in variant Clone, by integer arithmetic. -/
theorem parseTemperature_clone_eq (byte2 byte3 : Nat) (h2 : byte2 < 256) (h3 : byte3 < 256) :
    parseTemperature DHT22_CLONE byte2 byte3 =
      F32.mulTenth (if 256 * byte2 + byte3 < 32768 then ((256 * byte2 + byte3 : Nat) : Int)
        else ((256 * byte2 + byte3 : Nat) : Int) - 65536) := by
  simp only [parseTemperature]
  rw [raw_eq byte2 byte3 h2 h3, toInt16_eq _ (by omega)]

/-- The result of `parseTemperature` in variant Original, by integer arithmetic. -/
theorem parseTemperature_original_eq (byte2 byte3 : Nat) (h2 : byte2 < 256) (h3 : byte3 < 256) :
    parseTemperature DHT22_ORIGINAL byte2 byte3 =
      F32.mulTenth (if 32768 ≤ 256 * byte2 + byte3 then -(((256 * byte2 + byte3) % 32768 : Nat) : Int)
        else ((256 * byte2 + byte3 : Nat) : Int)) := by
  simp only [parseTemperature]
  rw [raw_eq byte2 byte3 h2 h3, and_magnitude, F32.neg_mulTenth]
  by_cases h : 32768 ≤ 256 * byte2 + byte3
  · rw [if_pos ((and_sign_ne_zero _ (by omega)).2 h), if_pos h]
  · rw [if_neg (fun hc => h ((and_sign_ne_zero _ (by omega)).1 hc)), if_neg h]

/-- The result of `parseTemperature` in variant Auto, by integer arithmetic. -/
theorem parseTemperature_auto_eq (byte2 byte3 : Nat) (h2 : byte2 < 256) (h3 : byte3 < 256) :
    parseTemperature DHT22_AUTO byte2 byte3 =
      F32.mulTenth (if 256 * byte2 + byte3 < 32768 then ((256 * byte2 + byte3 : Nat) : Int)
        else if (256 * byte2 + byte3) % 32768 ≤ 400 then -(((256 * byte2 + byte3) % 32768 : Nat) : Int)
        else ((256 * byte2 + byte3 : Nat) : Int) - 65536) := by
  simp only [parseTemperature]
  rw [raw_eq byte2 byte3 h2 h3, and_magnitude, F32.neg_mulTenth, toInt16_eq _ (by omega)]
  by_cases hff : byte2 = 0xFF
  · subst hff
    rw [if_pos rfl, if_neg (by omega), if_neg (by omega), if_neg (by omega)]
  · rw [if_neg hff]
    by_cases h : 32768 ≤ 256 * byte2 + byte3
    · have hlt : ¬ 256 * byte2 + byte3 < 32768 := by omega
      rw [if_pos ((and_sign_ne_zero _ (by omega)).2 h), if_neg hlt, if_neg hlt, ← F32.neg_mulTenth]
      by_cases hm : (256 * byte2 + byte3) % 32768 ≤ 400
      · rw [if_pos ((F32.mulTenth_ge_neg40 _ (by omega)).2 hm), if_pos hm, F32.neg_mulTenth]
      · rw [if_neg (fun hc => hm ((F32.mulTenth_ge_neg40 _ (by omega)).1 hc)), if_neg hm]
    · rw [if_neg (fun hc => h ((and_sign_ne_zero _ (by omega)).1 hc)), if_pos (by omega)]

/-! ## The loop decomposed -/

/-- One iteration changes the byte it addresses by `stepByte` and the error by
`stepError`. -/
theorem decodeStep_eq (cur : Nat → rmt_symbol_word_t) (a0 a1 a2 a3 a4 : Nat)
    (e : DHT22Clone_Error) (i : Nat) :
    (i / 8 = 0 → decodeStep cur ([a0, a1, a2, a3, a4], e) i =
      ([stepByte cur a0 i, a1, a2, a3, a4], stepError cur e i)) ∧
    (i / 8 = 1 → decodeStep cur ([a0, a1, a2, a3, a4], e) i =
      ([a0, stepByte cur a1 i, a2, a3, a4], stepError cur e i)) ∧
    (i / 8 = 2 → decodeStep cur ([a0, a1, a2, a3, a4], e) i =
      ([a0, a1, stepByte cur a2 i, a3, a4], stepError cur e i)) ∧
    (i / 8 = 3 → decodeStep cur ([a0, a1, a2, a3, a4], e) i =
      ([a0, a1, a2, stepByte cur a3 i, a4], stepError cur e i)) ∧
    (i / 8 = 4 → decodeStep cur ([a0, a1, a2, a3, a4], e) i =
      ([a0, a1, a2, a3, stepByte cur a4 i], stepError cur e i)) := by
  unfold decodeStep stepByte stepError
  refine ⟨?_, ?_, ?_, ?_, ?_⟩ <;> intro hk <;> rw [hk] <;> simp only [] <;> split_ifs <;> simp

/-- The loop computes each byte from its own 8 pulses, and the error on the side. -/
theorem decodeBits_eq (cur : Nat → rmt_symbol_word_t) :
    decodeBits cur = ([byteOf cur 0, byteOf cur 1, byteOf cur 2, byteOf cur 3, byteOf cur 4],
      errorOf cur) := by
  have h40 : List.range 40 = [0, 1, 2, 3, 4, 5, 6, 7, 8, 9, 10, 11, 12, 13, 14, 15, 16, 17, 18, 19,
      20, 21, 22, 23, 24, 25, 26, 27, 28, 29, 30, 31, 32, 33, 34, 35, 36, 37, 38, 39] := by decide
  have h8 : List.range 8 = [0, 1, 2, 3, 4, 5, 6, 7] := by decide
  unfold decodeBits byteOf errorOf
  rw [h40, h8]
  simp only [List.foldl_cons, List.foldl_nil]
  repeat rw [(decodeStep_eq cur _ _ _ _ _ _ _).1 (by decide)]
  repeat rw [(decodeStep_eq cur _ _ _ _ _ _ _).2.1 (by decide)]
  repeat rw [(decodeStep_eq cur _ _ _ _ _ _ _).2.2.1 (by decide)]
  repeat rw [(decodeStep_eq cur _ _ _ _ _ _ _).2.2.2.1 (by decide)]
  repeat rw [(decodeStep_eq cur _ _ _ _ _ _ _).2.2.2.2 (by decide)]

/-! ## The error of the loop -/

/-- The error after some iterations: unchanged when all their pulses are in range,
BadData otherwise. -/
theorem foldl_stepError (cur : Nat → rmt_symbol_word_t) (l : List Nat) (e : DHT22Clone_Error) :
    l.foldl (stepError cur) e = if ∀ i ∈ l, pulseValid cur i then e else DHT22_BAD_DATA := by
  induction l generalizing e with
  | nil => simp
  | cons a t ih =>
    rw [List.foldl_cons, ih]
    unfold stepError pulseValid
    by_cases ha : 55 < pulseAt cur (a + 1) ∧ pulseAt cur (a + 1) < 145
    · simp [ha]
    · simp [ha]

/-- The error after the loop. -/
theorem errorOf_eq (cur : Nat → rmt_symbol_word_t) :
    errorOf cur = if ∀ i : Nat, i < 40 → pulseValid cur i then DHT22_OK else DHT22_BAD_DATA := by
  unfold errorOf
  rw [foldl_stepError]
  simp only [List.mem_range]

/-! ## The bytes of the loop -/

/-- Shifting a byte left and setting bit 0, by arithmetic. -/
theorem shift_or_one (a : Nat) : ((a <<< 1) % 256) ||| 1 = (a * 2) % 256 + 1 := by
  have h := Nat.mul_add_lt_is_or (i := 1) (b := 1) (by norm_num) (a % 128)
  have e : (a <<< 1) % 256 = 2 ^ 1 * (a % 128) := by
    rw [Nat.shiftLeft_eq]; norm_num; omega
  rw [e, ← h]; norm_num; omega

/-- An in-range pulse shifts its bit into the byte. -/
theorem stepByte_valid (cur : Nat → rmt_symbol_word_t) (a i : Nat) (h : pulseValid cur i) :
    stepByte cur a i = (a * 2) % 256 + pulseBit cur i := by
  unfold pulseValid at h
  unfold stepByte pulseBit
  simp only [h, and_self, if_true]
  split_ifs
  · exact shift_or_one a
  · rw [Nat.shiftLeft_eq]; norm_num

/-- An out-of-range pulse leaves the byte as it is. -/
theorem stepByte_invalid (cur : Nat → rmt_symbol_word_t) (a i : Nat) (h : ¬ pulseValid cur i) :
    stepByte cur a i = a := by
  unfold pulseValid at h
  unfold stepByte
  simp only [h, if_false]

/-- A bit is 0 or 1. -/
theorem pulseBit_le (cur : Nat → rmt_symbol_word_t) (i : Nat) : pulseBit cur i ≤ 1 := by
  unfold pulseBit; split_ifs <;> omega

/-- Eight in-range pulses make a byte of their bits, most significant first. -/
theorem byteOf_valid (cur : Nat → rmt_symbol_word_t) (k : Nat)
    (h : ∀ j, j < 8 → pulseValid cur (8 * k + j)) :
    byteOf cur k = 128 * pulseBit cur (8 * k) + 64 * pulseBit cur (8 * k + 1)
      + 32 * pulseBit cur (8 * k + 2) + 16 * pulseBit cur (8 * k + 3)
      + 8 * pulseBit cur (8 * k + 4) + 4 * pulseBit cur (8 * k + 5)
      + 2 * pulseBit cur (8 * k + 6) + pulseBit cur (8 * k + 7) := by
  have h8 : List.range 8 = [0, 1, 2, 3, 4, 5, 6, 7] := by decide
  unfold byteOf
  rw [h8]
  simp only [List.foldl_cons, List.foldl_nil]
  rw [stepByte_valid cur _ _ (h 0 (by decide)), stepByte_valid cur _ _ (h 1 (by decide)),
    stepByte_valid cur _ _ (h 2 (by decide)), stepByte_valid cur _ _ (h 3 (by decide)),
    stepByte_valid cur _ _ (h 4 (by decide)), stepByte_valid cur _ _ (h 5 (by decide)),
    stepByte_valid cur _ _ (h 6 (by decide)), stepByte_valid cur _ _ (h 7 (by decide))]
  have b0 := pulseBit_le cur (8 * k + 0)
  have b1 := pulseBit_le cur (8 * k + 1)
  have b2 := pulseBit_le cur (8 * k + 2)
  have b3 := pulseBit_le cur (8 * k + 3)
  have b4 := pulseBit_le cur (8 * k + 4)
  have b5 := pulseBit_le cur (8 * k + 5)
  have b6 := pulseBit_le cur (8 * k + 6)
  have b7 := pulseBit_le cur (8 * k + 7)
  rw [Nat.add_zero] at *
  omega

set_option maxRecDepth 100000 in
/-- A byte is the sum of its 8 bits. -/
theorem byte_bits (b : Nat) (hb : b < 256) :
    128 * (b.testBit 7).toNat + 64 * (b.testBit 6).toNat + 32 * (b.testBit 5).toNat
      + 16 * (b.testBit 4).toNat + 8 * (b.testBit 3).toNat + 4 * (b.testBit 2).toNat
      + 2 * (b.testBit 1).toNat + (b.testBit 0).toNat = b := by
  revert b
  decide

/-- The pulses of an encoded payload are in range. -/
theorem Encodes.valid {cur : Nat → rmt_symbol_word_t} {bytes : List Nat} (h : Encodes cur bytes)
    (i : Nat) (hi : i < 40) : pulseValid cur i := by
  have := h i hi
  unfold pulseValid
  split_ifs at this <;> omega

/-- The pulses of an encoded payload stand for its bits. -/
theorem Encodes.bit {cur : Nat → rmt_symbol_word_t} {bytes : List Nat} (h : Encodes cur bytes)
    (i : Nat) (hi : i < 40) :
    pulseBit cur i = ((bytes.getD (i / 8) 0).testBit (7 - i % 8)).toNat := by
  have := h i hi
  unfold pulseBit
  cases hb : (bytes.getD (i / 8) 0).testBit (7 - i % 8)
  · rw [hb] at this
    simp only [Bool.false_eq_true, if_false] at this
    rw [if_neg (by omega)]; rfl
  · rw [hb] at this
    simp only [if_true] at this
    rw [if_pos this.1]; rfl

/-- The loop recovers each byte of an encoded payload. -/
theorem byteOf_of_encodes {cur : Nat → rmt_symbol_word_t} {bytes : List Nat}
    (h : Encodes cur bytes) (k : Nat) (hk : k < 5) (hb : bytes.getD k 0 < 256) :
    byteOf cur k = bytes.getD k 0 := by
  rw [byteOf_valid cur k (fun j hj => h.valid (8 * k + j) (by omega))]
  have e : ∀ j, j < 8 → pulseBit cur (8 * k + j) = ((bytes.getD k 0).testBit (7 - j)).toNat := by
    intro j hj
    rw [h.bit (8 * k + j) (by omega)]
    have e1 : (8 * k + j) / 8 = k := by omega
    have e2 : (8 * k + j) % 8 = j := by omega
    rw [e1, e2]
  have e0 := e 0 (by decide)
  rw [Nat.add_zero] at e0
  rw [e0, e 1 (by decide), e 2 (by decide), e 3 (by decide), e 4 (by decide), e 5 (by decide),
    e 6 (by decide), e 7 (by decide)]
  exact byte_bits _ hb

/-- The loop recovers an encoded payload, without error. -/
theorem decodeBits_of_encodes {cur : Nat → rmt_symbol_word_t} {b0 b1 b2 b3 b4 : Nat}
    (h : Encodes cur [b0, b1, b2, b3, b4])
    (h0 : b0 < 256) (h1 : b1 < 256) (h2 : b2 < 256) (h3 : b3 < 256) (h4 : b4 < 256) :
    decodeBits cur = ([b0, b1, b2, b3, b4], DHT22_OK) := by
  rw [decodeBits_eq, errorOf_eq, if_pos (fun i hi => h.valid i hi),
    byteOf_of_encodes h 0 (by decide) h0, byteOf_of_encodes h 1 (by decide) h1,
    byteOf_of_encodes h 2 (by decide) h2, byteOf_of_encodes h 3 (by decide) h3,
    byteOf_of_encodes h 4 (by decide) h4]
  rfl

/-! ## The branches of `read` -/

/-- The record `read` returns on delivered data. -/
theorem read_received (self : DHT22Clone) (rx_data : rmt_rx_done_event_data_t) :
    (read self (Capture.received rx_data)).1 = decodeSymbols self._type rx_data := rfl

/-- The result on a capture that passes validation, in terms of the loop. -/
theorem decodeSymbols_validated (t : DHT22Clone_Type) (rx_data : rmt_rx_done_event_data_t)
    (hlen : 41 ≤ rx_data.num_symbols ∧ rx_data.num_symbols ≤ 42)
    (hack : 130 ≤ pulseAt rx_data.received_symbols 0 ∧ pulseAt rx_data.received_symbols 0 ≤ 180) :
    decodeSymbols t rx_data =
      if (decodeBits rx_data.received_symbols).2 = DHT22_OK then
        if (decodeBits rx_data.received_symbols).1.getD 4 0 =
            ((decodeBits rx_data.received_symbols).1.getD 0 0
              + (decodeBits rx_data.received_symbols).1.getD 1 0
              + (decodeBits rx_data.received_symbols).1.getD 2 0
              + (decodeBits rx_data.received_symbols).1.getD 3 0) % 256 then
          { temperature := parseTemperature t ((decodeBits rx_data.received_symbols).1.getD 2 0)
              ((decodeBits rx_data.received_symbols).1.getD 3 0)
            humidity := F32.mulTenth ((((decodeBits rx_data.received_symbols).1.getD 0 0 <<< 8)
              ||| (decodeBits rx_data.received_symbols).1.getD 1 0 : Nat) : Int)
            error := DHT22_OK
            raw := (decodeBits rx_data.received_symbols).1 }
        else
          { temperature := F32.ofInt 0, humidity := F32.ofInt 0, error := DHT22_CHECKSUM,
            raw := (decodeBits rx_data.received_symbols).1 }
      else
        { temperature := F32.ofInt 0, humidity := F32.ofInt 0,
          error := (decodeBits rx_data.received_symbols).2,
          raw := (decodeBits rx_data.received_symbols).1 } := by
  unfold decodeSymbols
  simp only []
  rw [if_neg (by omega), if_neg (by omega), if_neg (by omega)]
  by_cases he : (decodeBits rx_data.received_symbols).2 = DHT22_OK
  · rw [if_pos he, if_pos he]
    split_ifs
    · rw [he]
    · rfl
  · rw [if_neg he, if_neg he]

/-- The result on a validated capture that carries five given bytes. -/
theorem decodeSymbols_of_encodes (t : DHT22Clone_Type) (rx_data : rmt_rx_done_event_data_t)
    {b0 b1 b2 b3 b4 : Nat}
    (hlen : 41 ≤ rx_data.num_symbols ∧ rx_data.num_symbols ≤ 42)
    (hack : 130 ≤ pulseAt rx_data.received_symbols 0 ∧ pulseAt rx_data.received_symbols 0 ≤ 180)
    (h : Encodes rx_data.received_symbols [b0, b1, b2, b3, b4])
    (h0 : b0 < 256) (h1 : b1 < 256) (h2 : b2 < 256) (h3 : b3 < 256) (h4 : b4 < 256) :
    decodeSymbols t rx_data =
      if b4 = (b0 + b1 + b2 + b3) % 256 then
        { temperature := parseTemperature t b2 b3
          humidity := F32.mulTenth ((256 * b0 + b1 : Nat) : Int)
          error := DHT22_OK
          raw := [b0, b1, b2, b3, b4] }
      else
        { temperature := F32.ofInt 0, humidity := F32.ofInt 0, error := DHT22_CHECKSUM,
          raw := [b0, b1, b2, b3, b4] } := by
  rw [decodeSymbols_validated t rx_data hlen hack, decodeBits_of_encodes h h0 h1 h2 h3 h4]
  simp only [List.getD_cons_zero, List.getD_cons_succ, if_true, shift_or_eq b0 b1 h1]

/-- The error component of the loop. -/
theorem decodeBits_error (cur : Nat → rmt_symbol_word_t) :
    (decodeBits cur).2 = if ∀ i : Nat, i < 40 → pulseValid cur i then DHT22_OK else DHT22_BAD_DATA := by
  rw [decodeBits_eq, errorOf_eq]

/-- The data component of the loop. -/
theorem decodeBits_data (cur : Nat → rmt_symbol_word_t) :
    (decodeBits cur).1 = [byteOf cur 0, byteOf cur 1, byteOf cur 2, byteOf cur 3, byteOf cur 4] := by
  rw [decodeBits_eq]

/-- The raw payload on a validated capture. -/
theorem decodeSymbols_raw (t : DHT22Clone_Type) (rx_data : rmt_rx_done_event_data_t)
    (hlen : 41 ≤ rx_data.num_symbols ∧ rx_data.num_symbols ≤ 42)
    (hack : 130 ≤ pulseAt rx_data.received_symbols 0 ∧ pulseAt rx_data.received_symbols 0 ≤ 180) :
    (decodeSymbols t rx_data).raw = (decodeBits rx_data.received_symbols).1 := by
  rw [decodeSymbols_validated t rx_data hlen hack]
  split_ifs <;> rfl

/-- The error on a validated capture. -/
theorem decodeSymbols_error (t : DHT22Clone_Type) (rx_data : rmt_rx_done_event_data_t)
    (hlen : 41 ≤ rx_data.num_symbols ∧ rx_data.num_symbols ≤ 42)
    (hack : 130 ≤ pulseAt rx_data.received_symbols 0 ∧ pulseAt rx_data.received_symbols 0 ≤ 180) :
    (decodeSymbols t rx_data).error =
      if ∀ i : Nat, i < 40 → pulseValid rx_data.received_symbols i then
        if (decodeBits rx_data.received_symbols).1.getD 4 0 =
            ((decodeBits rx_data.received_symbols).1.getD 0 0
              + (decodeBits rx_data.received_symbols).1.getD 1 0
              + (decodeBits rx_data.received_symbols).1.getD 2 0
              + (decodeBits rx_data.received_symbols).1.getD 3 0) % 256 then DHT22_OK
        else DHT22_CHECKSUM
      else DHT22_BAD_DATA := by
  rw [decodeSymbols_validated t rx_data hlen hack, decodeBits_error]
  split_ifs <;> first | rfl | contradiction

/-! ## The claims -/

/-- C1: end-to-end decode.  For all bytes `b0..b3` and every sensor variant, a
capture of 41 or 42 pairs whose first pair lasts between 130 and 180 and whose
pairs 1..40 carry, most significant bit first, the bytes `b0, b1, b2, b3` and
their sum modulo 256, makes `read` return error OK, exactly these five bytes as
raw payload, the humidity `(256 * b0 + b1) * 0.1f` (that is `256 * b0 + b1`
tenths, whatever the variant) and the temperature `parseTemperature b2 b3` of
the configured variant. -/
theorem read_decodes_encoded_payload (self : DHT22Clone) (rx_data : rmt_rx_done_event_data_t)
    (b0 b1 b2 b3 : Nat) (h0 : b0 < 256) (h1 : b1 < 256) (h2 : b2 < 256) (h3 : b3 < 256)
    (hlen : rx_data.num_symbols = 41 ∨ rx_data.num_symbols = 42)
    (hack : 130 ≤ pulseAt rx_data.received_symbols 0 ∧ pulseAt rx_data.received_symbols 0 ≤ 180)
    (henc : Encodes rx_data.received_symbols [b0, b1, b2, b3, (b0 + b1 + b2 + b3) % 256]) :
    (read self (Capture.received rx_data)).1 =
        { temperature := parseTemperature self._type b2 b3
          humidity := F32.mulTenth ((256 * b0 + b1 : Nat) : Int)
          error := DHT22_OK
          raw := [b0, b1, b2, b3, (b0 + b1 + b2 + b3) % 256] } ∧
      (F32.mulTenth ((256 * b0 + b1 : Nat) : Int)).toTenths = ((256 * b0 + b1 : Nat) : Int) := by
  constructor
  · rw [read_received,
      decodeSymbols_of_encodes self._type rx_data (by omega) hack henc h0 h1 h2 h3
        (Nat.mod_lt _ (by norm_num)),
      if_pos rfl]
  · exact F32.toTenths_mulTenth _ (by omega) (by omega)

/-- Witness of C1: the bytes 01 90 00 64 F5 after an acknowledgment of 150,
variant Original, give humidity 40.0, temperature 10.0 and error OK. -/
theorem read_decodes_encoded_payload_witness :
    Encodes (encodeTrain [0x01, 0x90, 0x00, 0x64, 0xF5] 0).received_symbols
        [0x01, 0x90, 0x00, 0x64, (0x01 + 0x90 + 0x00 + 0x64) % 256] ∧
      pulseAt (encodeTrain [0x01, 0x90, 0x00, 0x64, 0xF5] 0).received_symbols 0 = 150 ∧
      (read (DHT22Clone.new 4 DHT22_ORIGINAL)
          (Capture.received (encodeTrain [0x01, 0x90, 0x00, 0x64, 0xF5] 0))).1 =
        { temperature := F32.ofInt 10, humidity := F32.ofInt 40, error := DHT22_OK,
          raw := [0x01, 0x90, 0x00, 0x64, 0xF5] } ∧
      (F32.ofInt 10).toTenths = 100 ∧ (F32.ofInt 40).toTenths = 400 :=
  ⟨by decide, by decide,
    (read_decodes_encoded_payload (DHT22Clone.new 4 DHT22_ORIGINAL)
      (encodeTrain [0x01, 0x90, 0x00, 0x64, 0xF5] 0) 0x01 0x90 0x00 0x64
      (by decide) (by decide) (by decide) (by decide) (by decide) (by decide) (by decide)).1.trans
      (by decide),
    by decide, by decide⟩

/-- C2: Auto mode decodes every valid reading of either vendor.  For every `t`
from -400 to 800 tenths of a degree, `parseTemperature` in variant Auto returns
`t * 0.1f` (that is `t` tenths) on the bytes of the Clone encoding of `t` and
on the bytes of the Original encoding of `t`; and no word is at once the Clone
encoding of one such reading and the Original encoding of another. -/
theorem parseTemperature_auto_decodes_both (t : Int) (hlo : -400 ≤ t) (hhi : t ≤ 800) :
    parseTemperature DHT22_AUTO (encodeClone t / 256) (encodeClone t % 256) = F32.mulTenth t ∧
      parseTemperature DHT22_AUTO (encodeOriginal t / 256) (encodeOriginal t % 256)
        = F32.mulTenth t ∧
      (F32.mulTenth t).toTenths = t ∧
      ∀ u : Int, -400 ≤ u → u ≤ 800 → encodeClone t = encodeOriginal u → t = u := by
  refine ⟨?_, ?_, F32.toTenths_mulTenth t (by omega) (by omega), ?_⟩
  · have hc : encodeClone t < 65536 := by unfold encodeClone; omega
    rw [parseTemperature_auto_eq _ _ (by omega) (Nat.mod_lt _ (by norm_num))]
    congr 1
    have e : 256 * (encodeClone t / 256) + encodeClone t % 256 = encodeClone t := by omega
    rw [e]
    unfold encodeClone
    split_ifs <;> omega
  · have hc : encodeOriginal t < 65536 := by unfold encodeOriginal; split_ifs <;> omega
    rw [parseTemperature_auto_eq _ _ (by omega) (Nat.mod_lt _ (by norm_num))]
    congr 1
    have e : 256 * (encodeOriginal t / 256) + encodeOriginal t % 256 = encodeOriginal t := by
      omega
    rw [e]
    unfold encodeOriginal
    split_ifs <;> omega
  · intro u hu1 hu2
    unfold encodeClone encodeOriginal
    split_ifs <;> omega

/-- Witness of C2: the reading -40.0 in both encodings, FE70 and 8190. -/
theorem parseTemperature_auto_decodes_both_witness :
    encodeClone (-400) = 0xFE70 ∧ encodeOriginal (-400) = 0x8190 ∧
      parseTemperature DHT22_AUTO (encodeClone (-400) / 256) (encodeClone (-400) % 256)
        = F32.mulTenth (-400) ∧
      parseTemperature DHT22_AUTO (encodeOriginal (-400) / 256) (encodeOriginal (-400) % 256)
        = F32.mulTenth (-400) ∧
      (F32.mulTenth (-400)).toTenths = -400 ∧ F32.mulTenth (-400) = F32.ofInt (-40) :=
  ⟨by decide, by decide,
    (parseTemperature_auto_decodes_both (-400) (by decide) (by decide)).1,
    (parseTemperature_auto_decodes_both (-400) (by decide) (by decide)).2.1,
    (parseTemperature_auto_decodes_both (-400) (by decide) (by decide)).2.2.1, by decide⟩

/-- C3: integrity check.  On a capture that passes validation and whose 40
payload pulses are all in range, `read` returns OK exactly when the decoded
byte 4 equals the sum of the decoded bytes 0 to 3 modulo 256, and Checksum
otherwise.  In particular a capture carrying a payload obtained from one that
satisfies the checksum identity by changing one of its five bytes to a
different value is rejected with Checksum. -/
theorem read_checksum_gate (self : DHT22Clone) (rx_data : rmt_rx_done_event_data_t)
    (hlen : rx_data.num_symbols = 41 ∨ rx_data.num_symbols = 42)
    (hack : 130 ≤ pulseAt rx_data.received_symbols 0 ∧ pulseAt rx_data.received_symbols 0 ≤ 180)
    (hvalid : ∀ i : Nat, i < 40 → 55 < pulseAt rx_data.received_symbols (i + 1) ∧
      pulseAt rx_data.received_symbols (i + 1) < 145) :
    (read self (Capture.received rx_data)).1.raw = (decodeBits rx_data.received_symbols).1 ∧
      ((read self (Capture.received rx_data)).1.error = DHT22_OK ↔
        (read self (Capture.received rx_data)).1.raw.getD 4 0 =
          ((read self (Capture.received rx_data)).1.raw.getD 0 0
            + (read self (Capture.received rx_data)).1.raw.getD 1 0
            + (read self (Capture.received rx_data)).1.raw.getD 2 0
            + (read self (Capture.received rx_data)).1.raw.getD 3 0) % 256) ∧
      ((read self (Capture.received rx_data)).1.error ≠ DHT22_OK →
        (read self (Capture.received rx_data)).1.error = DHT22_CHECKSUM) ∧
      ∀ b0 b1 b2 b3 b4 k v : Nat, b0 < 256 → b1 < 256 → b2 < 256 → b3 < 256 →
        b4 = (b0 + b1 + b2 + b3) % 256 → k < 5 → v < 256 → v ≠ [b0, b1, b2, b3, b4].getD k 0 →
        Encodes rx_data.received_symbols ([b0, b1, b2, b3, b4].set k v) →
        (read self (Capture.received rx_data)).1.error = DHT22_CHECKSUM := by
  have hl : 41 ≤ rx_data.num_symbols ∧ rx_data.num_symbols ≤ 42 := by omega
  have hraw := decodeSymbols_raw self._type rx_data hl hack
  have herr := decodeSymbols_error self._type rx_data hl hack
  have hv : ∀ i : Nat, i < 40 → pulseValid rx_data.received_symbols i := fun i hi => hvalid i hi
  rw [if_pos hv] at herr
  rw [read_received]
  refine ⟨hraw, ?_, ?_, ?_⟩
  · rw [herr, hraw]
    split_ifs with hc
    · exact ⟨fun _ => hc, fun _ => rfl⟩
    · exact ⟨fun h => (by cases h), fun h => absurd h hc⟩
  · rw [herr]
    split_ifs with hc
    · intro h; exact absurd rfl h
    · intro _; rfl
  · intro b0 b1 b2 b3 b4 k v h0 h1 h2 h3 h4 hk hv hne henc
    have hb4 : b4 < 256 := by omega
    interval_cases k <;>
      simp only [List.set_cons_zero, List.set_cons_succ, List.getD_cons_zero,
        List.getD_cons_succ] at henc hne
    · rw [decodeSymbols_of_encodes self._type rx_data hl hack henc hv h1 h2 h3 hb4,
        if_neg (by omega)]
    · rw [decodeSymbols_of_encodes self._type rx_data hl hack henc h0 hv h2 h3 hb4,
        if_neg (by omega)]
    · rw [decodeSymbols_of_encodes self._type rx_data hl hack henc h0 h1 hv h3 hb4,
        if_neg (by omega)]
    · rw [decodeSymbols_of_encodes self._type rx_data hl hack henc h0 h1 h2 hv hb4,
        if_neg (by omega)]
    · rw [decodeSymbols_of_encodes self._type rx_data hl hack henc h0 h1 h2 h3 hv,
        if_neg (by omega)]

/-- Witness of C3: the payload 01 90 00 64 F5 with its byte 1 changed from 90
to 91 is rejected with Checksum, and its raw bytes are returned. -/
theorem read_checksum_gate_witness :
    (encodeTrain [0x01, 0x91, 0x00, 0x64, 0xF5] 1).num_symbols = 42 ∧
      Encodes (encodeTrain [0x01, 0x91, 0x00, 0x64, 0xF5] 1).received_symbols
        ([0x01, 0x90, 0x00, 0x64, 0xF5].set 1 0x91) ∧
      (read (DHT22Clone.new 4 DHT22_AUTO)
          (Capture.received (encodeTrain [0x01, 0x91, 0x00, 0x64, 0xF5] 1))).1.error
        = DHT22_CHECKSUM ∧
      (read (DHT22Clone.new 4 DHT22_AUTO)
          (Capture.received (encodeTrain [0x01, 0x91, 0x00, 0x64, 0xF5] 1))).1.raw
        = [0x01, 0x91, 0x00, 0x64, 0xF5] :=
  ⟨by decide, by decide,
    (read_checksum_gate (DHT22Clone.new 4 DHT22_AUTO)
      (encodeTrain [0x01, 0x91, 0x00, 0x64, 0xF5] 1) (by decide) (by decide) (by decide)).2.2.2
      0x01 0x90 0x00 0x64 0xF5 1 0x91 (by decide) (by decide) (by decide) (by decide) (by decide)
      (by decide) (by decide) (by decide) (by decide),
    (read_checksum_gate (DHT22Clone.new 4 DHT22_AUTO)
      (encodeTrain [0x01, 0x91, 0x00, 0x64, 0xF5] 1) (by decide) (by decide) (by decide)).1.trans
      (by decide)⟩

/-- C4: pulse validation, first detected wins.  For a capture of `L` pairs
whose first pair lasts `P`, `read` returns Underflow when `L < 41` and Overflow
when `L > 42`, whatever `P`; Nack when `L` is 41 or 42 and `P < 130` or
`P > 180`; and when `L` is 41 or 42 and `130 ≤ P ≤ 180` it returns none of the
three and the raw payload is the outcome of the bit decoding. -/
theorem read_validation_order (self : DHT22Clone) (rx_data : rmt_rx_done_event_data_t) :
    (rx_data.num_symbols < 41 →
        (read self (Capture.received rx_data)).1.error = DHT22_UNDERFLOW) ∧
      (42 < rx_data.num_symbols →
        (read self (Capture.received rx_data)).1.error = DHT22_OVERFLOW) ∧
      (41 ≤ rx_data.num_symbols → rx_data.num_symbols ≤ 42 →
        pulseAt rx_data.received_symbols 0 < 130 ∨ 180 < pulseAt rx_data.received_symbols 0 →
        (read self (Capture.received rx_data)).1.error = DHT22_NACK) ∧
      (41 ≤ rx_data.num_symbols → rx_data.num_symbols ≤ 42 →
        130 ≤ pulseAt rx_data.received_symbols 0 → pulseAt rx_data.received_symbols 0 ≤ 180 →
        (read self (Capture.received rx_data)).1.error ≠ DHT22_UNDERFLOW ∧
          (read self (Capture.received rx_data)).1.error ≠ DHT22_OVERFLOW ∧
          (read self (Capture.received rx_data)).1.error ≠ DHT22_NACK ∧
          (read self (Capture.received rx_data)).1.raw = (decodeBits rx_data.received_symbols).1) := by
  rw [read_received]
  refine ⟨?_, ?_, ?_, ?_⟩
  · intro h
    unfold decodeSymbols
    simp only []
    rw [if_pos h]
  · intro h
    unfold decodeSymbols
    simp only []
    rw [if_neg (by omega), if_pos h]
  · intro h1 h2 h
    unfold decodeSymbols
    simp only []
    rw [if_neg (by omega), if_neg (by omega), if_pos h]
  · intro h1 h2 h3 h4
    rw [decodeSymbols_error self._type rx_data ⟨h1, h2⟩ ⟨h3, h4⟩,
      decodeSymbols_raw self._type rx_data ⟨h1, h2⟩ ⟨h3, h4⟩]
    refine ⟨?_, ?_, ?_, rfl⟩ <;> split_ifs <;> decide

/-- Witness of C4: 40 pairs give Underflow, 43 pairs give Overflow, an
acknowledgment of 200 gives Nack, one of 150 is accepted. -/
theorem read_validation_order_witness :
    (read (DHT22Clone.new 4 DHT22_AUTO)
        (Capture.received (trainOfList (List.replicate 40 ⟨80, 70⟩)))).1.error = DHT22_UNDERFLOW ∧
      (read (DHT22Clone.new 4 DHT22_AUTO)
        (Capture.received (trainOfList (List.replicate 43 ⟨80, 70⟩)))).1.error = DHT22_OVERFLOW ∧
      (read (DHT22Clone.new 4 DHT22_AUTO)
        (Capture.received (trainOfList (⟨130, 70⟩ :: List.replicate 40 ⟨50, 26⟩)))).1.error
          = DHT22_NACK ∧
      (read (DHT22Clone.new 4 DHT22_AUTO)
        (Capture.received (trainOfList (⟨80, 70⟩ :: List.replicate 40 ⟨50, 26⟩)))).1.error
          ≠ DHT22_NACK :=
  ⟨(read_validation_order (DHT22Clone.new 4 DHT22_AUTO)
      (trainOfList (List.replicate 40 ⟨80, 70⟩))).1 (by decide),
    (read_validation_order (DHT22Clone.new 4 DHT22_AUTO)
      (trainOfList (List.replicate 43 ⟨80, 70⟩))).2.1 (by decide),
    (read_validation_order (DHT22Clone.new 4 DHT22_AUTO)
      (trainOfList (⟨130, 70⟩ :: List.replicate 40 ⟨50, 26⟩))).2.2.1
      (by decide) (by decide) (by decide),
    ((read_validation_order (DHT22Clone.new 4 DHT22_AUTO)
      (trainOfList (⟨80, 70⟩ :: List.replicate 40 ⟨50, 26⟩))).2.2.2
      (by decide) (by decide) (by decide) (by decide)).2.2.1⟩

/-- C5: bit decoding and packing.  On a validated capture whose 40 payload
pairs all last strictly between 55 and 145, byte `k` of the raw payload is the
sum over `j = 0..7` of `bit (8 k + j) * 2 ^ (7 - j)`, where `bit i` is 1 when
the pair at index `i + 1` lasts more than 110 and 0 otherwise. -/
theorem read_packs_bits_msb_first (self : DHT22Clone) (rx_data : rmt_rx_done_event_data_t)
    (hlen : rx_data.num_symbols = 41 ∨ rx_data.num_symbols = 42)
    (hack : 130 ≤ pulseAt rx_data.received_symbols 0 ∧ pulseAt rx_data.received_symbols 0 ≤ 180)
    (hvalid : ∀ i : Nat, i < 40 → 55 < pulseAt rx_data.received_symbols (i + 1) ∧
      pulseAt rx_data.received_symbols (i + 1) < 145) :
    (read self (Capture.received rx_data)).1.raw.length = 5 ∧
      ∀ k : Nat, k < 5 →
        (read self (Capture.received rx_data)).1.raw.getD k 0 =
          Finset.sum (Finset.range 8) fun j =>
            (if 110 < pulseAt rx_data.received_symbols (8 * k + j + 1) then 1 else 0)
              * 2 ^ (7 - j) := by
  rw [read_received, decodeSymbols_raw self._type rx_data (by omega) hack, decodeBits_data]
  refine ⟨rfl, ?_⟩
  intro k hk
  have hb : [byteOf rx_data.received_symbols 0, byteOf rx_data.received_symbols 1,
      byteOf rx_data.received_symbols 2, byteOf rx_data.received_symbols 3,
      byteOf rx_data.received_symbols 4].getD k 0 = byteOf rx_data.received_symbols k := by
    interval_cases k <;> rfl
  rw [hb, byteOf_valid _ k (fun j hj => hvalid (8 * k + j) (by omega))]
  simp only [Finset.sum_range_succ, Finset.sum_range_zero, pulseBit]
  norm_num

/-- Witness of C5: payload pairs lasting 110 and 111 in turn decode as the bits
0 and 1, that is as five bytes 55. -/
theorem read_packs_bits_msb_first_witness :
    (∀ i : Nat, i < 40 →
      55 < pulseAt (trainOfList (⟨80, 70⟩ :: (List.range 40).map fun i => ⟨50, 60 + i % 2⟩)).received_symbols (i + 1) ∧
      pulseAt (trainOfList (⟨80, 70⟩ :: (List.range 40).map fun i => ⟨50, 60 + i % 2⟩)).received_symbols (i + 1) < 145) ∧
      (∀ k : Nat, k < 5 →
        (read (DHT22Clone.new 4 DHT22_AUTO) (Capture.received
          (trainOfList (⟨80, 70⟩ :: (List.range 40).map fun i => ⟨50, 60 + i % 2⟩)))).1.raw.getD k 0 =
          Finset.sum (Finset.range 8) fun j =>
            (if 110 < pulseAt (trainOfList (⟨80, 70⟩ :: (List.range 40).map
                fun i => ⟨50, 60 + i % 2⟩)).received_symbols (8 * k + j + 1) then 1 else 0)
              * 2 ^ (7 - j)) ∧
      (read (DHT22Clone.new 4 DHT22_AUTO) (Capture.received
          (trainOfList (⟨80, 70⟩ :: (List.range 40).map fun i => ⟨50, 60 + i % 2⟩)))).1.raw
        = [0x55, 0x55, 0x55, 0x55, 0x55] :=
  ⟨by decide,
    (read_packs_bits_msb_first (DHT22Clone.new 4 DHT22_AUTO)
      (trainOfList (⟨80, 70⟩ :: (List.range 40).map fun i => ⟨50, 60 + i % 2⟩))
      (by decide) (by decide) (by decide)).2,
    by decide⟩

/-- C6: Clone interpreter.  For all bytes `byte2`, `byte3`, `parseTemperature`
in variant Clone returns `v * 0.1f`, that is `v` tenths of a degree, where `v`
is the word `256 * byte2 + byte3` read as a 16-bit two's-complement integer. -/
theorem parseTemperature_clone_twos_complement (byte2 byte3 : Nat) (h2 : byte2 < 256)
    (h3 : byte3 < 256) :
    parseTemperature DHT22_CLONE byte2 byte3 =
        F32.mulTenth (if 256 * byte2 + byte3 < 32768 then ((256 * byte2 + byte3 : Nat) : Int)
          else ((256 * byte2 + byte3 : Nat) : Int) - 65536) ∧
      (parseTemperature DHT22_CLONE byte2 byte3).toTenths =
        if 256 * byte2 + byte3 < 32768 then ((256 * byte2 + byte3 : Nat) : Int)
          else ((256 * byte2 + byte3 : Nat) : Int) - 65536 := by
  have h := parseTemperature_clone_eq byte2 byte3 h2 h3
  refine ⟨h, ?_⟩
  rw [h]
  apply F32.toTenths_mulTenth <;> split_ifs <;> omega

/-- Witness of C6: the word FF9C gives -10.0 and the word 0141 gives 32.1, as
the binary32 product `321 * 0.1f = 4308389376 × 2⁻²⁷`. -/
theorem parseTemperature_clone_twos_complement_witness :
    parseTemperature DHT22_CLONE 0xFF 0x9C = F32.ofInt (-10) ∧
      (parseTemperature DHT22_CLONE 0xFF 0x9C).toTenths = -100 ∧
      parseTemperature DHT22_CLONE 0x01 0x41 = ⟨4308389376⟩ ∧
      (parseTemperature DHT22_CLONE 0x01 0x41).toTenths = 321 :=
  ⟨(parseTemperature_clone_twos_complement 0xFF 0x9C (by decide) (by decide)).1.trans (by decide),
    (parseTemperature_clone_twos_complement 0xFF 0x9C (by decide) (by decide)).2.trans (by decide),
    (parseTemperature_clone_twos_complement 0x01 0x41 (by decide) (by decide)).1.trans (by decide),
    (parseTemperature_clone_twos_complement 0x01 0x41 (by decide) (by decide)).2.trans (by decide)⟩

/-- C7: Original interpreter.  For all bytes `byte2`, `byte3` with
`raw = 256 * byte2 + byte3`, `parseTemperature` in variant Original returns
`-(raw mod 32768)` tenths of a degree when bit 15 of `raw` is set and `raw`
tenths when it is clear. -/
theorem parseTemperature_original_sign_magnitude (byte2 byte3 : Nat) (h2 : byte2 < 256)
    (h3 : byte3 < 256) :
    parseTemperature DHT22_ORIGINAL byte2 byte3 =
        F32.mulTenth (if (256 * byte2 + byte3).testBit 15 then
            -(((256 * byte2 + byte3) % 32768 : Nat) : Int)
          else ((256 * byte2 + byte3 : Nat) : Int)) ∧
      (parseTemperature DHT22_ORIGINAL byte2 byte3).toTenths =
        if (256 * byte2 + byte3).testBit 15 then -(((256 * byte2 + byte3) % 32768 : Nat) : Int)
          else ((256 * byte2 + byte3 : Nat) : Int) := by
  have h := parseTemperature_original_eq byte2 byte3 h2 h3
  have hb : (256 * byte2 + byte3).testBit 15 = decide (32768 ≤ 256 * byte2 + byte3) := by
    rw [Nat.testBit_to_div_mod]
    congr 1
    norm_num
    omega
  simp only [hb, decide_eq_true_eq]
  refine ⟨h, ?_⟩
  rw [h]
  apply F32.toTenths_mulTenth <;> split_ifs <;> omega

/-- Witness of C7: the word 8065 gives -10.1 and the word 0190 gives 40.0. -/
theorem parseTemperature_original_sign_magnitude_witness :
    (parseTemperature DHT22_ORIGINAL 0x80 0x65).toTenths = -101 ∧
      parseTemperature DHT22_ORIGINAL 0x01 0x90 = F32.ofInt 40 ∧
      (parseTemperature DHT22_ORIGINAL 0x01 0x90).toTenths = 400 :=
  ⟨(parseTemperature_original_sign_magnitude 0x80 0x65 (by decide) (by decide)).2.trans
      (by decide),
    (parseTemperature_original_sign_magnitude 0x01 0x90 (by decide) (by decide)).1.trans
      (by decide),
    (parseTemperature_original_sign_magnitude 0x01 0x90 (by decide) (by decide)).2.trans
      (by decide)⟩

/-- C8: Auto with high byte FF.  For every `byte3`, `parseTemperature` in
variant Auto on `(0xFF, byte3)` returns the Clone decoding of the word, which
is `byte3 - 256` tenths of a degree, and this is never the Original decoding of
the word. -/
theorem parseTemperature_auto_high_byte_ff (byte3 : Nat) (h3 : byte3 < 256) :
    parseTemperature DHT22_AUTO 0xFF byte3 = parseTemperature DHT22_CLONE 0xFF byte3 ∧
      parseTemperature DHT22_AUTO 0xFF byte3 = F32.mulTenth ((byte3 : Int) - 256) ∧
      (parseTemperature DHT22_AUTO 0xFF byte3).toTenths = (byte3 : Int) - 256 ∧
      parseTemperature DHT22_AUTO 0xFF byte3 ≠ parseTemperature DHT22_ORIGINAL 0xFF byte3 := by
  have ha := parseTemperature_auto_eq 0xFF byte3 (by decide) h3
  have hc := parseTemperature_clone_eq 0xFF byte3 (by decide) h3
  have ho := parseTemperature_original_eq 0xFF byte3 (by decide) h3
  rw [if_neg (by omega), if_neg (by omega)] at ha
  rw [if_neg (by omega)] at hc
  rw [if_pos (by omega)] at ho
  have e : ((256 * 0xFF + byte3 : Nat) : Int) - 65536 = (byte3 : Int) - 256 := by omega
  rw [e] at ha hc
  have ht := F32.toTenths_mulTenth ((byte3 : Int) - 256) (by omega) (by omega)
  refine ⟨ha.trans hc.symm, ha, ha ▸ ht, ?_⟩
  intro hne
  have h1 : (parseTemperature DHT22_AUTO 0xFF byte3).toTenths = (byte3 : Int) - 256 := ha ▸ ht
  rw [hne, ho, F32.toTenths_mulTenth _ (by omega) (by omega)] at h1
  omega

/-- Witness of C8: the word FF00 gives -25.6. -/
theorem parseTemperature_auto_high_byte_ff_witness :
    (0 : Nat) < 256 ∧ (parseTemperature DHT22_AUTO 0xFF 0x00).toTenths = -256 :=
  ⟨by decide, (parseTemperature_auto_high_byte_ff 0 (by decide)).2.2.1⟩

/-- C9: Auto with bit 15 set and high byte from 80 to FE.  For every such word
`raw = 256 * byte2 + byte3`, the Original decoding is at least `-40.0f` exactly
when `raw mod 32768 ≤ 400`; in that case `parseTemperature` in variant Auto
returns the Original decoding, `-(raw mod 32768)` tenths, and otherwise it
returns the Clone decoding, `raw - 65536` tenths. -/
theorem parseTemperature_auto_sign_bit (byte2 byte3 : Nat) (hlo : 0x80 ≤ byte2)
    (hhi : byte2 ≤ 0xFE) (h3 : byte3 < 256) :
    (F32.ge (parseTemperature DHT22_ORIGINAL byte2 byte3) (F32.ofInt (-40)) = true ↔
        (256 * byte2 + byte3) % 32768 ≤ 400) ∧
      ((256 * byte2 + byte3) % 32768 ≤ 400 →
        parseTemperature DHT22_AUTO byte2 byte3 = parseTemperature DHT22_ORIGINAL byte2 byte3 ∧
        parseTemperature DHT22_AUTO byte2 byte3 =
          F32.mulTenth (-(((256 * byte2 + byte3) % 32768 : Nat) : Int)) ∧
        (parseTemperature DHT22_AUTO byte2 byte3).toTenths =
          -(((256 * byte2 + byte3) % 32768 : Nat) : Int)) ∧
      (400 < (256 * byte2 + byte3) % 32768 →
        parseTemperature DHT22_AUTO byte2 byte3 = parseTemperature DHT22_CLONE byte2 byte3 ∧
        parseTemperature DHT22_AUTO byte2 byte3 =
          F32.mulTenth (((256 * byte2 + byte3 : Nat) : Int) - 65536) ∧
        (parseTemperature DHT22_AUTO byte2 byte3).toTenths =
          ((256 * byte2 + byte3 : Nat) : Int) - 65536) := by
  have h2 : byte2 < 256 := by omega
  have ha := parseTemperature_auto_eq byte2 byte3 h2 h3
  have hc := parseTemperature_clone_eq byte2 byte3 h2 h3
  have ho := parseTemperature_original_eq byte2 byte3 h2 h3
  rw [if_neg (by omega)] at ha hc
  rw [if_pos (by omega)] at ho
  refine ⟨?_, ?_, ?_⟩
  · rw [ho, ← F32.neg_mulTenth]
    exact F32.mulTenth_ge_neg40 _ (by omega)
  · intro hm
    rw [if_pos hm] at ha
    refine ⟨ha.trans ho.symm, ha, ?_⟩
    rw [ha]
    exact F32.toTenths_mulTenth _ (by omega) (by omega)
  · intro hm
    rw [if_neg (by omega)] at ha
    refine ⟨ha.trans hc.symm, ha, ?_⟩
    rw [ha]
    exact F32.toTenths_mulTenth _ (by omega) (by omega)

/-- Witness of C9: the word 8065 gives -10.1 and the word 8190 gives -40.0,
both by the Original decoding; the word 8191 falls back to the Clone
decoding. -/
theorem parseTemperature_auto_sign_bit_witness :
    (parseTemperature DHT22_AUTO 0x80 0x65).toTenths = -101 ∧
      parseTemperature DHT22_AUTO 0x81 0x90 = parseTemperature DHT22_ORIGINAL 0x81 0x90 ∧
      (parseTemperature DHT22_AUTO 0x81 0x90).toTenths = -400 ∧
      parseTemperature DHT22_AUTO 0x81 0x91 = parseTemperature DHT22_CLONE 0x81 0x91 ∧
      (parseTemperature DHT22_AUTO 0x81 0x91).toTenths = -32367 :=
  ⟨((parseTemperature_auto_sign_bit 0x80 0x65 (by decide) (by decide) (by decide)).2.1
      (by decide)).2.2.trans (by decide),
    ((parseTemperature_auto_sign_bit 0x81 0x90 (by decide) (by decide) (by decide)).2.1
      (by decide)).1,
    ((parseTemperature_auto_sign_bit 0x81 0x90 (by decide) (by decide) (by decide)).2.1
      (by decide)).2.2.trans (by decide),
    ((parseTemperature_auto_sign_bit 0x81 0x91 (by decide) (by decide) (by decide)).2.2
      (by decide)).1,
    ((parseTemperature_auto_sign_bit 0x81 0x91 (by decide) (by decide) (by decide)).2.2
      (by decide)).2.2.trans (by decide)⟩

/-- C10: BadData is sticky and comes before the checksum.  On a capture that
passes validation, if one of the 40 payload pairs lasts at most 55 or at least
145, `read` returns BadData, with temperature and humidity left at zero and
the raw payload as the loop produced it, whatever the other pulses are and
whether or not the decoded bytes satisfy the checksum identity. -/
theorem read_bad_data_sticky (self : DHT22Clone) (rx_data : rmt_rx_done_event_data_t)
    (hlen : rx_data.num_symbols = 41 ∨ rx_data.num_symbols = 42)
    (hack : 130 ≤ pulseAt rx_data.received_symbols 0 ∧ pulseAt rx_data.received_symbols 0 ≤ 180)
    (hbad : ∃ i : Nat, i < 40 ∧ (pulseAt rx_data.received_symbols (i + 1) ≤ 55 ∨
      145 ≤ pulseAt rx_data.received_symbols (i + 1))) :
    (read self (Capture.received rx_data)).1 =
      { temperature := F32.ofInt 0, humidity := F32.ofInt 0, error := DHT22_BAD_DATA,
        raw := (decodeBits rx_data.received_symbols).1 } := by
  have hnv : ¬ ∀ i : Nat, i < 40 → pulseValid rx_data.received_symbols i := by
    intro hv
    obtain ⟨i, hi, hb⟩ := hbad
    have := hv i hi
    unfold pulseValid at this
    omega
  have he := decodeBits_error rx_data.received_symbols
  rw [if_neg hnv] at he
  rw [read_received, decodeSymbols_validated self._type rx_data (by omega) hack, he,
    if_neg (by decide)]

/-- Witness of C10: 40 payload pairs of which the third lasts 200 and all the
others stand for a zero bit; the decoded bytes are all zero and satisfy the
checksum identity, and the error is BadData. -/
theorem read_bad_data_sticky_witness :
    (∃ i : Nat, i < 40 ∧
      (pulseAt (trainOfList (⟨80, 70⟩ :: (List.range 40).map
          fun i => ⟨50, if i = 2 then 150 else 26⟩)).received_symbols (i + 1) ≤ 55 ∨
        145 ≤ pulseAt (trainOfList (⟨80, 70⟩ :: (List.range 40).map
          fun i => ⟨50, if i = 2 then 150 else 26⟩)).received_symbols (i + 1))) ∧
      (read (DHT22Clone.new 4 DHT22_AUTO) (Capture.received
        (trainOfList (⟨80, 70⟩ :: (List.range 40).map
          fun i => ⟨50, if i = 2 then 150 else 26⟩)))).1 =
        { temperature := F32.ofInt 0, humidity := F32.ofInt 0, error := DHT22_BAD_DATA,
          raw := [0, 0, 0, 0, 0] } :=
  ⟨⟨2, by decide, by decide⟩,
    (read_bad_data_sticky (DHT22Clone.new 4 DHT22_AUTO)
      (trainOfList (⟨80, 70⟩ :: (List.range 40).map fun i => ⟨50, if i = 2 then 150 else 26⟩))
      (by decide) (by decide) ⟨2, by decide, by decide⟩).trans (by decide)⟩

/-! ## The object after a read -/

/-- The error of the record `read` returns on a driver failure or a timeout. -/
theorem read_error_not_received (self : DHT22Clone) :
    (read self Capture.newChannelFailed).1.error = DHT22_DRIVER ∧
      (read self Capture.receiveFailed).1.error = DHT22_DRIVER ∧
      (read self Capture.timedOut).1.error = DHT22_TIMEOUT :=
  ⟨rfl, rfl, rfl⟩

/-- The object after `read`: the error is stored, the measurements only on OK. -/
theorem read_state (self : DHT22Clone) (capture : Capture) :
    (read self capture).2 =
      { self with
        _lastError := (read self capture).1.error
        _temperature := if (read self capture).1.error = DHT22_OK then
          (read self capture).1.temperature else self._temperature
        _humidity := if (read self capture).1.error = DHT22_OK then
          (read self capture).1.humidity else self._humidity } := by
  cases capture with
  | newChannelFailed => rfl
  | receiveFailed => rfl
  | timedOut => rfl
  | received rx_data =>
    simp only [read]
    split_ifs <;> rfl

/-- The variant and the pin of the object are not changed by `read`. -/
theorem read_type (self : DHT22Clone) (capture : Capture) :
    (read self capture).2._type = self._type ∧ (read self capture).2._pin = self._pin := by
  rw [read_state]
  exact ⟨rfl, rfl⟩

/-- The record `read` returns depends on the object through its variant only. -/
theorem read_result_congr (s1 s2 : DHT22Clone) (capture : Capture) (h : s1._type = s2._type) :
    (read s1 capture).1 = (read s2 capture).1 := by
  cases capture with
  | newChannelFailed => rfl
  | receiveFailed => rfl
  | timedOut => rfl
  | received rx_data => rw [read_received, read_received, h]

/-- The record `read` returns on delivered data: one of the three validation
failures, or the outcome of the decoding of a validated capture. -/
theorem decodeSymbols_cases (t : DHT22Clone_Type) (rx_data : rmt_rx_done_event_data_t) :
    decodeSymbols t rx_data =
        { temperature := F32.ofInt 0, humidity := F32.ofInt 0, error := DHT22_UNDERFLOW,
          raw := [0, 0, 0, 0, 0] } ∨
      decodeSymbols t rx_data =
        { temperature := F32.ofInt 0, humidity := F32.ofInt 0, error := DHT22_OVERFLOW,
          raw := [0, 0, 0, 0, 0] } ∨
      decodeSymbols t rx_data =
        { temperature := F32.ofInt 0, humidity := F32.ofInt 0, error := DHT22_NACK,
          raw := [0, 0, 0, 0, 0] } ∨
      ((41 ≤ rx_data.num_symbols ∧ rx_data.num_symbols ≤ 42) ∧
        (130 ≤ pulseAt rx_data.received_symbols 0 ∧ pulseAt rx_data.received_symbols 0 ≤ 180)) := by
  by_cases h1 : rx_data.num_symbols < 41
  · left; unfold decodeSymbols; simp only []; rw [if_pos h1]
  · by_cases h2 : 42 < rx_data.num_symbols
    · right; left; unfold decodeSymbols; simp only []; rw [if_neg h1, if_pos h2]
    · by_cases h3 : pulseAt rx_data.received_symbols 0 < 130 ∨
          180 < pulseAt rx_data.received_symbols 0
      · right; right; left; unfold decodeSymbols; simp only []
        rw [if_neg h1, if_neg h2, if_pos h3]
      · right; right; right
        omega

/-! ## The claims on the cache and on the variants -/

/-- C12: last-good cache frame.  For every object and every capture outcome,
when `read` returns an error other than OK the cached `_temperature` and
`_humidity` are what they were before the call, and when it returns OK they are
the temperature and the humidity of the returned record. -/
theorem read_cache_frame (self : DHT22Clone) (capture : Capture) :
    ((read self capture).1.error ≠ DHT22_OK →
        (read self capture).2._temperature = self._temperature ∧
        (read self capture).2._humidity = self._humidity) ∧
      ((read self capture).1.error = DHT22_OK →
        (read self capture).2._temperature = (read self capture).1.temperature ∧
        (read self capture).2._humidity = (read self capture).1.humidity) := by
  constructor
  · intro h
    rw [read_state]
    simp only [if_neg h, and_self]
  · intro h
    rw [read_state]
    simp only [if_pos h, and_self]

/-- Witness of C12: a timeout after a successful read leaves the cache at 10.0
and 40.0, the values the successful read stored. -/
theorem read_cache_frame_witness :
    (read (DHT22Clone.new 4 DHT22_ORIGINAL)
        (Capture.received (encodeTrain [0x01, 0x90, 0x00, 0x64, 0xF5] 0))).2._temperature
        = F32.ofInt 10 ∧
      (read (read (DHT22Clone.new 4 DHT22_ORIGINAL)
        (Capture.received (encodeTrain [0x01, 0x90, 0x00, 0x64, 0xF5] 0))).2
        Capture.timedOut).2._temperature = F32.ofInt 10 ∧
      (read (read (DHT22Clone.new 4 DHT22_ORIGINAL)
        (Capture.received (encodeTrain [0x01, 0x90, 0x00, 0x64, 0xF5] 0))).2
        Capture.timedOut).2._humidity = F32.ofInt 40 :=
  ⟨((read_cache_frame (DHT22Clone.new 4 DHT22_ORIGINAL)
      (Capture.received (encodeTrain [0x01, 0x90, 0x00, 0x64, 0xF5] 0))).2 (by decide)).1.trans
      (by decide),
    ((read_cache_frame (read (DHT22Clone.new 4 DHT22_ORIGINAL)
      (Capture.received (encodeTrain [0x01, 0x90, 0x00, 0x64, 0xF5] 0))).2 Capture.timedOut).1
      (by decide)).1.trans (by decide),
    ((read_cache_frame (read (DHT22Clone.new 4 DHT22_ORIGINAL)
      (Capture.received (encodeTrain [0x01, 0x90, 0x00, 0x64, 0xF5] 0))).2 Capture.timedOut).1
      (by decide)).2.trans (by decide)⟩

/-- C14: the last error tracks every read.  For every object and every capture
outcome (failure at channel creation, failure at enable or receive, timeout,
delivered pulse train), `_lastError` after `read` is the error of the returned
record. -/
theorem read_last_error (self : DHT22Clone) (capture : Capture) :
    (read self capture).2._lastError = (read self capture).1.error := by
  rw [read_state]

/-- C15: the decoding does not depend on the cached state.  Two objects that
differ only in `_lastError`, `_temperature` and `_humidity` return the same
record on the same capture outcome; hence a second `read` of the same capture
with the same object returns the record of the first. -/
theorem read_independent_of_cache (s1 s2 : DHT22Clone) (capture : Capture)
    (hpin : s1._pin = s2._pin) (htype : s1._type = s2._type) :
    (read s1 capture).1 = (read s2 capture).1 ∧
      (read (read s1 capture).2 capture).1 = (read s1 capture).1 :=
  have _ := hpin
  ⟨read_result_congr s1 s2 capture htype,
    read_result_congr _ _ capture (read_type s1 capture).1⟩

/-- Witness of C15: a fresh object and one whose cache holds other values and
a Timeout decode the same capture to the same record. -/
theorem read_independent_of_cache_witness :
    (read (DHT22Clone.new 4 DHT22_AUTO)
        (Capture.received (encodeTrain [0x01, 0x90, 0x00, 0x64, 0xF5] 0))).1 =
      (read ⟨4, DHT22_AUTO, DHT22_TIMEOUT, F32.ofInt 7, F32.ofInt 9⟩
        (Capture.received (encodeTrain [0x01, 0x90, 0x00, 0x64, 0xF5] 0))).1 :=
  (read_independent_of_cache (DHT22Clone.new 4 DHT22_AUTO)
    ⟨4, DHT22_AUTO, DHT22_TIMEOUT, F32.ofInt 7, F32.ofInt 9⟩
    (Capture.received (encodeTrain [0x01, 0x90, 0x00, 0x64, 0xF5] 0)) rfl rfl).1

/-- The product with `0.1f` of a natural number is not negative. -/
theorem F32.mulTenth_units_nonneg (m : Nat) : 0 ≤ (F32.mulTenth (m : Int)).units := by
  rw [F32.mulTenth_units_of_nonneg]
  exact Int.natCast_nonneg _

/-- C16: the encodings agree on non-negative values.  For every word
`raw = 256 * byte2 + byte3` with bit 15 clear, `parseTemperature` returns
`raw * 0.1f`, that is `raw` tenths of a degree, in the three variants Clone,
Original and Auto. -/
theorem parseTemperature_agree_bit15_clear (byte2 byte3 : Nat) (h2 : byte2 < 0x80)
    (h3 : byte3 < 256) :
    parseTemperature DHT22_CLONE byte2 byte3 = F32.mulTenth ((256 * byte2 + byte3 : Nat) : Int) ∧
      parseTemperature DHT22_ORIGINAL byte2 byte3
        = F32.mulTenth ((256 * byte2 + byte3 : Nat) : Int) ∧
      parseTemperature DHT22_AUTO byte2 byte3
        = F32.mulTenth ((256 * byte2 + byte3 : Nat) : Int) ∧
      (F32.mulTenth ((256 * byte2 + byte3 : Nat) : Int)).toTenths
        = ((256 * byte2 + byte3 : Nat) : Int) := by
  have hc := parseTemperature_clone_eq byte2 byte3 (by omega) h3
  have ho := parseTemperature_original_eq byte2 byte3 (by omega) h3
  have ha := parseTemperature_auto_eq byte2 byte3 (by omega) h3
  rw [if_pos (by omega)] at hc ha
  rw [if_neg (by omega)] at ho
  exact ⟨hc, ho, ha, F32.toTenths_mulTenth _ (by omega) (by omega)⟩

/-- Witness of C16: the word 0190 gives 40.0 in the three variants. -/
theorem parseTemperature_agree_bit15_clear_witness :
    parseTemperature DHT22_CLONE 0x01 0x90 = F32.ofInt 40 ∧
      parseTemperature DHT22_ORIGINAL 0x01 0x90 = F32.ofInt 40 ∧
      parseTemperature DHT22_AUTO 0x01 0x90 = F32.ofInt 40 :=
  ⟨(parseTemperature_agree_bit15_clear 0x01 0x90 (by decide) (by decide)).1.trans (by decide),
    (parseTemperature_agree_bit15_clear 0x01 0x90 (by decide) (by decide)).2.1.trans (by decide),
    (parseTemperature_agree_bit15_clear 0x01 0x90 (by decide) (by decide)).2.2.1.trans
      (by decide)⟩

/-- C18: Auto is the plausibility of Original.  For every 16-bit word,
`parseTemperature` in variant Auto is the Original decoding of the word when
that decoding is at least `-40.0f`, and the Clone decoding otherwise; so the
test `byte2 == 0xFF` does not change the result: the function without it is
the same function. -/
theorem parseTemperature_auto_plausible_original (byte2 byte3 : Nat) (h2 : byte2 < 256)
    (h3 : byte3 < 256) :
    parseTemperature DHT22_AUTO byte2 byte3 =
        (if F32.ge (parseTemperature DHT22_ORIGINAL byte2 byte3) (F32.ofInt (-40)) = true then
          parseTemperature DHT22_ORIGINAL byte2 byte3
        else parseTemperature DHT22_CLONE byte2 byte3) ∧
      parseTemperature DHT22_AUTO byte2 byte3 = parseTemperatureAutoWithoutFF byte2 byte3 := by
  have hc := parseTemperature_clone_eq byte2 byte3 h2 h3
  have ho := parseTemperature_original_eq byte2 byte3 h2 h3
  have ha := parseTemperature_auto_eq byte2 byte3 h2 h3
  have hw : parseTemperatureAutoWithoutFF byte2 byte3 =
      F32.mulTenth (if 256 * byte2 + byte3 < 32768 then ((256 * byte2 + byte3 : Nat) : Int)
        else if (256 * byte2 + byte3) % 32768 ≤ 400 then
          -(((256 * byte2 + byte3) % 32768 : Nat) : Int)
        else ((256 * byte2 + byte3 : Nat) : Int) - 65536) := by
    simp only [parseTemperatureAutoWithoutFF]
    rw [raw_eq byte2 byte3 h2 h3, and_magnitude, toInt16_eq _ (by omega)]
    by_cases h : 32768 ≤ 256 * byte2 + byte3
    · have hlt : ¬ 256 * byte2 + byte3 < 32768 := by omega
      rw [if_pos ((and_sign_ne_zero _ (by omega)).2 h), if_neg hlt, if_neg hlt]
      by_cases hm : (256 * byte2 + byte3) % 32768 ≤ 400
      · rw [if_pos ((F32.mulTenth_ge_neg40 _ (by omega)).2 hm), if_pos hm, F32.neg_mulTenth]
      · rw [if_neg (fun hc => hm ((F32.mulTenth_ge_neg40 _ (by omega)).1 hc)), if_neg hm]
    · rw [if_neg (fun hc => h ((and_sign_ne_zero _ (by omega)).1 hc)), if_pos (by omega)]
  refine ⟨?_, ha.trans hw.symm⟩
  by_cases h : 32768 ≤ 256 * byte2 + byte3
  · have hlt : ¬ 256 * byte2 + byte3 < 32768 := by omega
    rw [if_pos h] at ho
    rw [if_neg hlt] at ha hc
    have hge : F32.ge (parseTemperature DHT22_ORIGINAL byte2 byte3) (F32.ofInt (-40)) = true ↔
        (256 * byte2 + byte3) % 32768 ≤ 400 := by
      rw [ho, ← F32.neg_mulTenth]
      exact F32.mulTenth_ge_neg40 _ (by omega)
    by_cases hm : (256 * byte2 + byte3) % 32768 ≤ 400
    · rw [if_pos (hge.2 hm), ha, if_pos hm, ho]
    · rw [if_neg (fun hc => hm (hge.1 hc)), ha, if_neg hm, hc]
  · rw [if_neg h] at ho
    rw [if_pos (by omega)] at ha
    have hge : F32.ge (parseTemperature DHT22_ORIGINAL byte2 byte3) (F32.ofInt (-40)) = true := by
      rw [ho]
      have := F32.mulTenth_units_nonneg (256 * byte2 + byte3)
      simp only [F32.ge, F32.ofInt, decide_eq_true_eq]
      omega
    rw [if_pos hge, ha, ho]

/-- Witness of C18: on the word FF00 the Original decoding, -3251.2, is below
-40.0, and Auto is the Clone decoding, -25.6, with or without the test. -/
theorem parseTemperature_auto_plausible_original_witness :
    F32.ge (parseTemperature DHT22_ORIGINAL 0xFF 0x00) (F32.ofInt (-40)) = false ∧
      parseTemperature DHT22_AUTO 0xFF 0x00 = parseTemperature DHT22_CLONE 0xFF 0x00 ∧
      parseTemperatureAutoWithoutFF 0xFF 0x00 = parseTemperature DHT22_CLONE 0xFF 0x00 :=
  ⟨by decide,
    (parseTemperature_auto_plausible_original 0xFF 0x00 (by decide) (by decide)).1.trans
      (by decide),
    (parseTemperature_auto_plausible_original 0xFF 0x00 (by decide) (by decide)).2.symm.trans
      (by decide)⟩

/-! ## The claims on failed reads and on the trailing pair -/

/-- C19: failed reads carry zeroed measurements.  For every capture outcome on
which `read` returns an error other than OK, the returned temperature and
humidity are 0; when the error is Driver, Timeout, Underflow, Overflow or Nack
the raw payload is five zero bytes, and when it is BadData or Checksum the
capture was delivered and the raw payload is the five bytes the bit loop
produced. -/
theorem read_failure_zeroed (self : DHT22Clone) (capture : Capture) :
    ((read self capture).1.error ≠ DHT22_OK →
        (read self capture).1.temperature = F32.ofInt 0 ∧
        (read self capture).1.humidity = F32.ofInt 0) ∧
      ((read self capture).1.error = DHT22_DRIVER ∨ (read self capture).1.error = DHT22_TIMEOUT ∨
          (read self capture).1.error = DHT22_UNDERFLOW ∨
          (read self capture).1.error = DHT22_OVERFLOW ∨
          (read self capture).1.error = DHT22_NACK →
        (read self capture).1.raw = [0, 0, 0, 0, 0]) ∧
      ((read self capture).1.error = DHT22_BAD_DATA ∨
          (read self capture).1.error = DHT22_CHECKSUM →
        ∃ rx_data, capture = Capture.received rx_data ∧
          (read self capture).1.raw = (decodeBits rx_data.received_symbols).1 ∧
          (read self capture).1.raw.length = 5) := by
  cases capture with
  | newChannelFailed =>
    refine ⟨fun _ => ⟨rfl, rfl⟩, fun _ => rfl, fun h => ?_⟩
    rcases h with h | h <;> cases h
  | receiveFailed =>
    refine ⟨fun _ => ⟨rfl, rfl⟩, fun _ => rfl, fun h => ?_⟩
    rcases h with h | h <;> cases h
  | timedOut =>
    refine ⟨fun _ => ⟨rfl, rfl⟩, fun _ => rfl, fun h => ?_⟩
    rcases h with h | h <;> cases h
  | received rx_data =>
    rw [read_received]
    rcases decodeSymbols_cases self._type rx_data with h | h | h | ⟨hl, ha⟩
    · rw [h]
      refine ⟨fun _ => ⟨rfl, rfl⟩, fun _ => rfl, fun h => ?_⟩
      rcases h with h | h <;> cases h
    · rw [h]
      refine ⟨fun _ => ⟨rfl, rfl⟩, fun _ => rfl, fun h => ?_⟩
      rcases h with h | h <;> cases h
    · rw [h]
      refine ⟨fun _ => ⟨rfl, rfl⟩, fun _ => rfl, fun h => ?_⟩
      rcases h with h | h <;> cases h
    · have hlen : (decodeBits rx_data.received_symbols).1.length = 5 := by
        rw [decodeBits_data]; rfl
      have he := decodeBits_error rx_data.received_symbols
      rw [decodeSymbols_validated self._type rx_data hl ha]
      refine ⟨?_, ?_, ?_⟩
      · split_ifs with h1 h2
        · intro h; exact absurd rfl h
        · intro _; exact ⟨rfl, rfl⟩
        · intro _; exact ⟨rfl, rfl⟩
      · split_ifs with h1 h2
        · intro h; rcases h with h | h | h | h | h <;> cases h
        · intro h; rcases h with h | h | h | h | h <;> cases h
        · intro h
          simp only [] at h
          rw [he] at h
          split_ifs at h <;> rcases h with h | h | h | h | h <;> cases h
      · intro _
        refine ⟨rx_data, rfl, ?_, ?_⟩ <;> split_ifs <;> first | rfl | exact hlen

/-- Witness of C19: a timeout returns zero measurements and zero bytes, and a
capture with a wrong checksum returns zero measurements and its five bytes. -/
theorem read_failure_zeroed_witness :
    (read (DHT22Clone.new 4 DHT22_AUTO) Capture.timedOut).1 =
        { temperature := F32.ofInt 0, humidity := F32.ofInt 0, error := DHT22_TIMEOUT,
          raw := [0, 0, 0, 0, 0] } ∧
      (read (DHT22Clone.new 4 DHT22_AUTO)
          (Capture.received (encodeTrain [0x01, 0x91, 0x00, 0x64, 0xF5] 0))).1.temperature
        = F32.ofInt 0 ∧
      (read (DHT22Clone.new 4 DHT22_AUTO)
          (Capture.received (encodeTrain [0x01, 0x91, 0x00, 0x64, 0xF5] 0))).1.humidity
        = F32.ofInt 0 ∧
      (read (DHT22Clone.new 4 DHT22_AUTO)
          (Capture.received (encodeTrain [0x01, 0x91, 0x00, 0x64, 0xF5] 0))).1.raw
        = [0x01, 0x91, 0x00, 0x64, 0xF5] :=
  ⟨by decide,
    ((read_failure_zeroed (DHT22Clone.new 4 DHT22_AUTO)
      (Capture.received (encodeTrain [0x01, 0x91, 0x00, 0x64, 0xF5] 0))).1 (by decide)).1,
    ((read_failure_zeroed (DHT22Clone.new 4 DHT22_AUTO)
      (Capture.received (encodeTrain [0x01, 0x91, 0x00, 0x64, 0xF5] 0))).1 (by decide)).2,
    by decide⟩

/-- Two folds over a list agree when their steps agree on its elements. -/
theorem foldl_congr_mem {α β : Type} (f g : α → β → α) (l : List β)
    (h : ∀ a : α, ∀ b ∈ l, f a b = g a b) (a : α) : l.foldl f a = l.foldl g a := by
  induction l generalizing a with
  | nil => rfl
  | cons b t ih =>
    rw [List.foldl_cons, List.foldl_cons, h a b (List.mem_cons_self b t)]
    exact ih (fun a c hc => h a c (List.mem_cons_of_mem b hc)) (g a b)

/-- The loop reads the pairs at indices 1 to 40 only. -/
theorem decodeBits_congr (cur1 cur2 : Nat → rmt_symbol_word_t)
    (h : ∀ i : Nat, i ≤ 40 → cur1 i = cur2 i) : decodeBits cur1 = decodeBits cur2 := by
  unfold decodeBits
  apply foldl_congr_mem
  intro st i hi
  have hlt : i < 40 := List.mem_range.1 hi
  unfold decodeStep pulseAt
  rw [h (i + 1) (by omega)]

/-- The record returned on delivered data of 41 or 42 pairs depends on the
pairs at indices 0 to 40 only. -/
theorem decodeSymbols_congr (t : DHT22Clone_Type) (rx1 rx2 : rmt_rx_done_event_data_t)
    (h1 : rx1.num_symbols = 41 ∨ rx1.num_symbols = 42)
    (h2 : rx2.num_symbols = 41 ∨ rx2.num_symbols = 42)
    (h : ∀ i : Nat, i ≤ 40 → rx1.received_symbols i = rx2.received_symbols i) :
    decodeSymbols t rx1 = decodeSymbols t rx2 := by
  have hp : pulseAt rx1.received_symbols 0 = pulseAt rx2.received_symbols 0 := by
    unfold pulseAt; rw [h 0 (by omega)]
  have hb := decodeBits_congr rx1.received_symbols rx2.received_symbols h
  unfold decodeSymbols
  simp only []
  rw [if_neg (by omega : ¬ rx1.num_symbols < 41), if_neg (by omega : ¬ 42 < rx1.num_symbols),
    if_neg (by omega : ¬ rx2.num_symbols < 41), if_neg (by omega : ¬ 42 < rx2.num_symbols),
    hp, hb]

/-- C17: the trailing line-release pair is ignored.  The record `read` returns
on a delivered capture of 41 or 42 pairs depends only on the pairs at indices
0 to 40: two such captures that agree there give the same record; and a
capture of 42 pairs gives the same record as the capture made of its first 41
pairs. -/
theorem read_ignores_trailing_pair (self : DHT22Clone) :
    (∀ rx1 rx2 : rmt_rx_done_event_data_t,
        rx1.num_symbols = 41 ∨ rx1.num_symbols = 42 →
        rx2.num_symbols = 41 ∨ rx2.num_symbols = 42 →
        (∀ i : Nat, i ≤ 40 → rx1.received_symbols i = rx2.received_symbols i) →
        (read self (Capture.received rx1)).1 = (read self (Capture.received rx2)).1) ∧
      ∀ l : List rmt_symbol_word_t, l.length = 42 →
        (read self (Capture.received (trainOfList l))).1 =
          (read self (Capture.received (trainOfList (l.take 41)))).1 := by
  constructor
  · intro rx1 rx2 h1 h2 h
    rw [read_received, read_received]
    exact decodeSymbols_congr self._type rx1 rx2 h1 h2 h
  · intro l hl
    rw [read_received, read_received]
    apply decodeSymbols_congr
    · right; exact hl
    · left
      simp only [trainOfList, List.length_take, hl]
      rfl
    · intro i hi
      simp only [trainOfList, List.getD_eq_getElem?_getD]
      rw [List.getElem?_take_of_lt (by omega)]

/-- Witness of C17: the same payload followed by no trailing pair, by a
trailing pair of 50, and by a trailing pair of 9000 decodes to the same
record. -/
theorem read_ignores_trailing_pair_witness :
    (read (DHT22Clone.new 4 DHT22_AUTO)
        (Capture.received (encodeTrain [0x01, 0x90, 0x00, 0x64, 0xF5] 1))).1 =
      (read (DHT22Clone.new 4 DHT22_AUTO)
        (Capture.received (encodeTrain [0x01, 0x90, 0x00, 0x64, 0xF5] 0))).1 ∧
    (read (DHT22Clone.new 4 DHT22_AUTO) (Capture.received (trainOfList
        ((⟨80, 70⟩ :: List.replicate 40 ⟨50, 26⟩) ++ [⟨4000, 5000⟩])))).1 =
      (read (DHT22Clone.new 4 DHT22_AUTO) (Capture.received (trainOfList
        (List.take 41 ((⟨80, 70⟩ :: List.replicate 40 ⟨50, 26⟩) ++ [⟨4000, 5000⟩]))))).1 :=
  ⟨(read_ignores_trailing_pair (DHT22Clone.new 4 DHT22_AUTO)).1
      (encodeTrain [0x01, 0x90, 0x00, 0x64, 0xF5] 1) (encodeTrain [0x01, 0x90, 0x00, 0x64, 0xF5] 0)
      (by decide) (by decide) (by decide),
    (read_ignores_trailing_pair (DHT22Clone.new 4 DHT22_AUTO)).2
      (((⟨80, 70⟩ : rmt_symbol_word_t) :: List.replicate 40 ⟨50, 26⟩) ++ [⟨4000, 5000⟩])
      (by decide)⟩

/-! ## The state over a sequence of reads -/

/-- The object after one more read. -/
theorem runReads_snoc (self : DHT22Clone) (pre : List Capture) (c : Capture) :
    runReads self (pre ++ [c]) = (read (runReads self pre) c).2 := by
  unfold runReads
  rw [List.foldl_append]
  rfl

/-- Counterexample to C13 as stated: after a successful read and then a
timeout, `_lastError` is Timeout while the cache holds the values of the
successful read, so the three fields are neither all initial nor all from one
successful read. -/
theorem state_fields_after_failed_read :
    (runReads (DHT22Clone.new 4 DHT22_ORIGINAL)
        [Capture.received (encodeTrain [0x01, 0x90, 0x00, 0x64, 0xF5] 0),
          Capture.timedOut])._lastError = DHT22_TIMEOUT ∧
      (runReads (DHT22Clone.new 4 DHT22_ORIGINAL)
        [Capture.received (encodeTrain [0x01, 0x90, 0x00, 0x64, 0xF5] 0),
          Capture.timedOut])._temperature = F32.ofInt 10 ∧
      ¬ (((runReads (DHT22Clone.new 4 DHT22_ORIGINAL)
            [Capture.received (encodeTrain [0x01, 0x90, 0x00, 0x64, 0xF5] 0),
              Capture.timedOut])._lastError = DHT22_OK ∧
          CacheInitial (runReads (DHT22Clone.new 4 DHT22_ORIGINAL)
            [Capture.received (encodeTrain [0x01, 0x90, 0x00, 0x64, 0xF5] 0),
              Capture.timedOut])) ∨
        ∃ (s0 : DHT22Clone) (c : Capture),
          (runReads (DHT22Clone.new 4 DHT22_ORIGINAL)
            [Capture.received (encodeTrain [0x01, 0x90, 0x00, 0x64, 0xF5] 0),
              Capture.timedOut])._lastError = (read s0 c).1.error ∧
          CacheFromRead (runReads (DHT22Clone.new 4 DHT22_ORIGINAL)
            [Capture.received (encodeTrain [0x01, 0x90, 0x00, 0x64, 0xF5] 0),
              Capture.timedOut]) (read s0 c).1) := by
  have he : (runReads (DHT22Clone.new 4 DHT22_ORIGINAL)
      [Capture.received (encodeTrain [0x01, 0x90, 0x00, 0x64, 0xF5] 0),
        Capture.timedOut])._lastError = DHT22_TIMEOUT := by decide
  refine ⟨he, by decide, ?_⟩
  rintro (⟨h, _⟩ | ⟨s0, c, h1, h2, _⟩)
  · rw [he] at h; cases h
  · rw [he, h2] at h1; cases h1

/-- C13, amended: the state over any sequence of reads from a fresh object.
The cached `_temperature` and `_humidity` are both initial or both those of one
and the same successful read of the sequence; `_lastError` is the error of the
most recent read; and when `_lastError` is OK the three fields are all initial
(no read yet) or all those of the most recent read, which succeeded. -/
theorem state_fields_consistent (pin : Nat) (type : DHT22Clone_Type) (captures : List Capture) :
    (CacheInitial (runReads (DHT22Clone.new pin type) captures) ∨
        ∃ (pre : List Capture) (c : Capture) (post : List Capture),
          captures = pre ++ c :: post ∧
          CacheFromRead (runReads (DHT22Clone.new pin type) captures)
            (read (runReads (DHT22Clone.new pin type) pre) c).1) ∧
      (∀ (pre : List Capture) (c : Capture), captures = pre ++ [c] →
        (runReads (DHT22Clone.new pin type) captures)._lastError =
          (read (runReads (DHT22Clone.new pin type) pre) c).1.error) ∧
      ((runReads (DHT22Clone.new pin type) captures)._lastError = DHT22_OK →
        (captures = [] ∧ CacheInitial (runReads (DHT22Clone.new pin type) captures)) ∨
        ∃ (pre : List Capture) (c : Capture), captures = pre ++ [c] ∧
          CacheFromRead (runReads (DHT22Clone.new pin type) captures)
            (read (runReads (DHT22Clone.new pin type) pre) c).1) := by
  induction captures using List.reverseRecOn with
  | nil =>
    refine ⟨Or.inl ⟨rfl, rfl⟩, ?_, fun _ => Or.inl ⟨rfl, rfl, rfl⟩⟩
    intro pre c h
    exact absurd h (by simp)
  | append_singleton pre c ih =>
    have hs := runReads_snoc (DHT22Clone.new pin type) pre c
    have hst := read_state (runReads (DHT22Clone.new pin type) pre) c
    have hlast : (runReads (DHT22Clone.new pin type) (pre ++ [c]))._lastError =
        (read (runReads (DHT22Clone.new pin type) pre) c).1.error := by
      rw [hs, hst]
    have hok : (read (runReads (DHT22Clone.new pin type) pre) c).1.error = DHT22_OK →
        CacheFromRead (runReads (DHT22Clone.new pin type) (pre ++ [c]))
          (read (runReads (DHT22Clone.new pin type) pre) c).1 := by
      intro h
      refine ⟨h, ?_, ?_⟩
      · rw [hs, hst]; simp only [if_pos h]
      · rw [hs, hst]; simp only [if_pos h]
    refine ⟨?_, ?_, ?_⟩
    · by_cases h : (read (runReads (DHT22Clone.new pin type) pre) c).1.error = DHT22_OK
      · exact Or.inr ⟨pre, c, [], rfl, hok h⟩
      · have ht : (runReads (DHT22Clone.new pin type) (pre ++ [c]))._temperature =
            (runReads (DHT22Clone.new pin type) pre)._temperature := by
          rw [hs, hst]; simp only [if_neg h]
        have hh : (runReads (DHT22Clone.new pin type) (pre ++ [c]))._humidity =
            (runReads (DHT22Clone.new pin type) pre)._humidity := by
          rw [hs, hst]; simp only [if_neg h]
        rcases ih.1 with ⟨h1, h2⟩ | ⟨p, d, q, hpq, h0, h1, h2⟩
        · exact Or.inl ⟨ht.trans h1, hh.trans h2⟩
        · refine Or.inr ⟨p, d, q ++ [c], ?_, h0, ht.trans h1, hh.trans h2⟩
          rw [hpq, List.append_assoc, List.cons_append]
    · intro pre2 c2 h
      obtain ⟨h1, h2⟩ := List.append_inj' h rfl
      rw [← h1, ← List.singleton_inj.1 h2]
      exact hlast
    · intro h
      rw [hlast] at h
      exact Or.inr ⟨pre, c, rfl, hok h⟩

/-- Witness of C13, amended: after a successful read and a timeout the cache is
that of the successful read, the first of the sequence, and `_lastError` is the
error of the timeout. -/
theorem state_fields_consistent_witness :
    CacheFromRead (runReads (DHT22Clone.new 4 DHT22_ORIGINAL)
        [Capture.received (encodeTrain [0x01, 0x90, 0x00, 0x64, 0xF5] 0), Capture.timedOut])
        (read (runReads (DHT22Clone.new 4 DHT22_ORIGINAL) [])
          (Capture.received (encodeTrain [0x01, 0x90, 0x00, 0x64, 0xF5] 0))).1 ∧
      (runReads (DHT22Clone.new 4 DHT22_ORIGINAL)
        [Capture.received (encodeTrain [0x01, 0x90, 0x00, 0x64, 0xF5] 0),
          Capture.timedOut])._lastError =
        (read (runReads (DHT22Clone.new 4 DHT22_ORIGINAL)
          [Capture.received (encodeTrain [0x01, 0x90, 0x00, 0x64, 0xF5] 0)])
          Capture.timedOut).1.error :=
  ⟨⟨by decide, by decide, by decide⟩,
    (state_fields_consistent 4 DHT22_ORIGINAL
      [Capture.received (encodeTrain [0x01, 0x90, 0x00, 0x64, 0xF5] 0), Capture.timedOut]).2.1
      [Capture.received (encodeTrain [0x01, 0x90, 0x00, 0x64, 0xF5] 0)] Capture.timedOut rfl⟩

/-! ## The record and the captured pairs -/

/-- The record returned on delivered data depends only on the pairs below the
captured length: it is the same for two buffers of one length that agree
there. -/
theorem decodeSymbols_congr_below (t : DHT22Clone_Type) (rx1 rx2 : rmt_rx_done_event_data_t)
    (hlen : rx1.num_symbols = rx2.num_symbols)
    (h : ∀ i : Nat, i < rx1.num_symbols → rx1.received_symbols i = rx2.received_symbols i) :
    decodeSymbols t rx1 = decodeSymbols t rx2 := by
  by_cases h1 : rx1.num_symbols < 41
  · unfold decodeSymbols
    simp only []
    rw [if_pos h1, if_pos (hlen ▸ h1)]
  · by_cases h2 : 42 < rx1.num_symbols
    · unfold decodeSymbols
      simp only []
      rw [if_neg h1, if_pos h2, if_neg (hlen ▸ h1), if_pos (hlen ▸ h2)]
    · exact decodeSymbols_congr t rx1 rx2 (by omega) (by omega)
        (fun i hi => h i (by omega))

/-! ## The raw payload under one corrupted pulse -/

/-- The bits of a byte given as a sum of 8 weighted bits. -/
theorem testBit_pack (b0 b1 b2 b3 b4 b5 b6 b7 : Nat) (h0 : b0 ≤ 1) (h1 : b1 ≤ 1) (h2 : b2 ≤ 1)
    (h3 : b3 ≤ 1) (h4 : b4 ≤ 1) (h5 : b5 ≤ 1) (h6 : b6 ≤ 1) (h7 : b7 ≤ 1) :
    (128 * b0 + 64 * b1 + 32 * b2 + 16 * b3 + 8 * b4 + 4 * b5 + 2 * b6 + b7).testBit 7
        = decide (b0 = 1) ∧
      (128 * b0 + 64 * b1 + 32 * b2 + 16 * b3 + 8 * b4 + 4 * b5 + 2 * b6 + b7).testBit 6
        = decide (b1 = 1) ∧
      (128 * b0 + 64 * b1 + 32 * b2 + 16 * b3 + 8 * b4 + 4 * b5 + 2 * b6 + b7).testBit 5
        = decide (b2 = 1) ∧
      (128 * b0 + 64 * b1 + 32 * b2 + 16 * b3 + 8 * b4 + 4 * b5 + 2 * b6 + b7).testBit 4
        = decide (b3 = 1) ∧
      (128 * b0 + 64 * b1 + 32 * b2 + 16 * b3 + 8 * b4 + 4 * b5 + 2 * b6 + b7).testBit 3
        = decide (b4 = 1) ∧
      (128 * b0 + 64 * b1 + 32 * b2 + 16 * b3 + 8 * b4 + 4 * b5 + 2 * b6 + b7).testBit 2
        = decide (b5 = 1) ∧
      (128 * b0 + 64 * b1 + 32 * b2 + 16 * b3 + 8 * b4 + 4 * b5 + 2 * b6 + b7).testBit 1
        = decide (b6 = 1) ∧
      (128 * b0 + 64 * b1 + 32 * b2 + 16 * b3 + 8 * b4 + 4 * b5 + 2 * b6 + b7).testBit 0
        = decide (b7 = 1) := by
  refine ⟨?_, ?_, ?_, ?_, ?_, ?_, ?_, ?_⟩ <;>
    (rw [Nat.testBit_to_div_mod, decide_eq_decide]; norm_num; omega)

/-- The bit of a pulse is 1 exactly when the pulse lasts more than 110. -/
theorem pulseBit_eq_one (cur : Nat → rmt_symbol_word_t) (i : Nat) :
    decide (pulseBit cur i = 1) = decide (110 < pulseAt cur (i + 1)) := by
  rw [decide_eq_decide]
  unfold pulseBit
  split_ifs with h
  · exact ⟨fun _ => h, fun _ => rfl⟩
  · exact ⟨fun h1 => absurd h1 (by decide), fun h1 => absurd h1 h⟩

/-- One iteration on the byte it addresses, by arithmetic. -/
theorem stepByte_eq (cur : Nat → rmt_symbol_word_t) (a i : Nat) :
    stepByte cur a i = if pulseValid cur i then (a * 2) % 256 + pulseBit cur i else a := by
  by_cases h : pulseValid cur i
  · rw [if_pos h, stepByte_valid cur a i h]
  · rw [if_neg h, stepByte_invalid cur a i h]

/-- A byte whose 8 pulses are in range holds their bits, most significant
first. -/
theorem byteOf_testBit_valid (cur : Nat → rmt_symbol_word_t) (k : Nat)
    (h : ∀ j, j < 8 → pulseValid cur (8 * k + j)) (j : Nat) (hj : j < 8) :
    (byteOf cur k).testBit (7 - j) = decide (110 < pulseAt cur (8 * k + j + 1)) := by
  rw [← pulseBit_eq_one, byteOf_valid cur k h]
  have hp := testBit_pack (pulseBit cur (8 * k)) (pulseBit cur (8 * k + 1))
    (pulseBit cur (8 * k + 2)) (pulseBit cur (8 * k + 3)) (pulseBit cur (8 * k + 4))
    (pulseBit cur (8 * k + 5)) (pulseBit cur (8 * k + 6)) (pulseBit cur (8 * k + 7))
    (pulseBit_le _ _) (pulseBit_le _ _) (pulseBit_le _ _) (pulseBit_le _ _)
    (pulseBit_le _ _) (pulseBit_le _ _) (pulseBit_le _ _) (pulseBit_le _ _)
  interval_cases j
  · exact hp.1
  · exact hp.2.1
  · exact hp.2.2.1
  · exact hp.2.2.2.1
  · exact hp.2.2.2.2.1
  · exact hp.2.2.2.2.2.1
  · exact hp.2.2.2.2.2.2.1
  · exact hp.2.2.2.2.2.2.2

/-- A byte of which one pulse, the one at place `j0`, is out of range and the
other 7 are in range: the 7 bits, in pulse order, below a zero bit. -/
theorem byteOf_one_invalid (cur : Nat → rmt_symbol_word_t) (k j0 : Nat) (hj0 : j0 < 8)
    (hbad : ¬ pulseValid cur (8 * k + j0))
    (hv : ∀ j, j < 8 → j ≠ j0 → pulseValid cur (8 * k + j)) :
    byteOf cur k =
      128 * 0 + 64 * pulseBit cur (8 * k + (if 0 < j0 then 0 else 1))
        + 32 * pulseBit cur (8 * k + (if 1 < j0 then 1 else 2))
        + 16 * pulseBit cur (8 * k + (if 2 < j0 then 2 else 3))
        + 8 * pulseBit cur (8 * k + (if 3 < j0 then 3 else 4))
        + 4 * pulseBit cur (8 * k + (if 4 < j0 then 4 else 5))
        + 2 * pulseBit cur (8 * k + (if 5 < j0 then 5 else 6))
        + pulseBit cur (8 * k + (if 6 < j0 then 6 else 7)) := by
  have h8 : List.range 8 = [0, 1, 2, 3, 4, 5, 6, 7] := by decide
  have b0 := pulseBit_le cur (8 * k)
  have b1 := pulseBit_le cur (8 * k + 1)
  have b2 := pulseBit_le cur (8 * k + 2)
  have b3 := pulseBit_le cur (8 * k + 3)
  have b4 := pulseBit_le cur (8 * k + 4)
  have b5 := pulseBit_le cur (8 * k + 5)
  have b6 := pulseBit_le cur (8 * k + 6)
  have b7 := pulseBit_le cur (8 * k + 7)
  unfold byteOf
  rw [h8]
  simp only [List.foldl_cons, List.foldl_nil, stepByte_eq]
  interval_cases j0
  · rw [if_neg hbad, if_pos (hv 1 (by decide) (by decide)),
      if_pos (hv 2 (by decide) (by decide)), if_pos (hv 3 (by decide) (by decide)),
      if_pos (hv 4 (by decide) (by decide)), if_pos (hv 5 (by decide) (by decide)),
      if_pos (hv 6 (by decide) (by decide)), if_pos (hv 7 (by decide) (by decide))]
    norm_num
    omega
  · rw [if_pos (hv 0 (by decide) (by decide)), if_neg hbad,
      if_pos (hv 2 (by decide) (by decide)), if_pos (hv 3 (by decide) (by decide)),
      if_pos (hv 4 (by decide) (by decide)), if_pos (hv 5 (by decide) (by decide)),
      if_pos (hv 6 (by decide) (by decide)), if_pos (hv 7 (by decide) (by decide))]
    norm_num
    omega
  · rw [if_pos (hv 0 (by decide) (by decide)), if_pos (hv 1 (by decide) (by decide)),
      if_neg hbad, if_pos (hv 3 (by decide) (by decide)),
      if_pos (hv 4 (by decide) (by decide)), if_pos (hv 5 (by decide) (by decide)),
      if_pos (hv 6 (by decide) (by decide)), if_pos (hv 7 (by decide) (by decide))]
    norm_num
    omega
  · rw [if_pos (hv 0 (by decide) (by decide)), if_pos (hv 1 (by decide) (by decide)),
      if_pos (hv 2 (by decide) (by decide)), if_neg hbad,
      if_pos (hv 4 (by decide) (by decide)), if_pos (hv 5 (by decide) (by decide)),
      if_pos (hv 6 (by decide) (by decide)), if_pos (hv 7 (by decide) (by decide))]
    norm_num
    omega
  · rw [if_pos (hv 0 (by decide) (by decide)), if_pos (hv 1 (by decide) (by decide)),
      if_pos (hv 2 (by decide) (by decide)), if_pos (hv 3 (by decide) (by decide)),
      if_neg hbad, if_pos (hv 5 (by decide) (by decide)),
      if_pos (hv 6 (by decide) (by decide)), if_pos (hv 7 (by decide) (by decide))]
    norm_num
    omega
  · rw [if_pos (hv 0 (by decide) (by decide)), if_pos (hv 1 (by decide) (by decide)),
      if_pos (hv 2 (by decide) (by decide)), if_pos (hv 3 (by decide) (by decide)),
      if_pos (hv 4 (by decide) (by decide)), if_neg hbad,
      if_pos (hv 6 (by decide) (by decide)), if_pos (hv 7 (by decide) (by decide))]
    norm_num
    omega
  · rw [if_pos (hv 0 (by decide) (by decide)), if_pos (hv 1 (by decide) (by decide)),
      if_pos (hv 2 (by decide) (by decide)), if_pos (hv 3 (by decide) (by decide)),
      if_pos (hv 4 (by decide) (by decide)), if_pos (hv 5 (by decide) (by decide)),
      if_neg hbad, if_pos (hv 7 (by decide) (by decide))]
    norm_num
    omega
  · rw [if_pos (hv 0 (by decide) (by decide)), if_pos (hv 1 (by decide) (by decide)),
      if_pos (hv 2 (by decide) (by decide)), if_pos (hv 3 (by decide) (by decide)),
      if_pos (hv 4 (by decide) (by decide)), if_pos (hv 5 (by decide) (by decide)),
      if_pos (hv 6 (by decide) (by decide)), if_neg hbad]
    norm_num
    omega

/-- The bits of a byte of which the pulse at place `j0` is out of range: bit 7
is zero, the bits of the pulses before `j0` are one position below their place,
those of the pulses after `j0` are at their place. -/
theorem byteOf_testBit_one_invalid (cur : Nat → rmt_symbol_word_t) (k j0 : Nat) (hj0 : j0 < 8)
    (hbad : ¬ pulseValid cur (8 * k + j0))
    (hv : ∀ j, j < 8 → j ≠ j0 → pulseValid cur (8 * k + j)) :
    (byteOf cur k).testBit 7 = false ∧
      ∀ j, j < 8 → j ≠ j0 →
        (byteOf cur k).testBit (if j < j0 then 6 - j else 7 - j)
          = decide (110 < pulseAt cur (8 * k + j + 1)) := by
  rw [byteOf_one_invalid cur k j0 hj0 hbad hv]
  have hp := testBit_pack 0 (pulseBit cur (8 * k + (if 0 < j0 then 0 else 1)))
    (pulseBit cur (8 * k + (if 1 < j0 then 1 else 2)))
    (pulseBit cur (8 * k + (if 2 < j0 then 2 else 3)))
    (pulseBit cur (8 * k + (if 3 < j0 then 3 else 4)))
    (pulseBit cur (8 * k + (if 4 < j0 then 4 else 5)))
    (pulseBit cur (8 * k + (if 5 < j0 then 5 else 6)))
    (pulseBit cur (8 * k + (if 6 < j0 then 6 else 7)))
    (by decide) (pulseBit_le _ _) (pulseBit_le _ _) (pulseBit_le _ _) (pulseBit_le _ _)
    (pulseBit_le _ _) (pulseBit_le _ _) (pulseBit_le _ _)
  refine ⟨hp.1.trans (by decide), ?_⟩
  intro j hj hne
  rw [← pulseBit_eq_one]
  by_cases hlt : j < j0
  · have e : (if j < j0 then 6 - j else 7 - j) = 6 - j := if_pos hlt
    rw [e]
    have hm : j < 7 := by omega
    interval_cases j
    · rw [hp.2.1, if_pos hlt]
    · rw [hp.2.2.1, if_pos hlt]
    · rw [hp.2.2.2.1, if_pos hlt]
    · rw [hp.2.2.2.2.1, if_pos hlt]
    · rw [hp.2.2.2.2.2.1, if_pos hlt]
    · rw [hp.2.2.2.2.2.2.1, if_pos hlt]
    · rw [hp.2.2.2.2.2.2.2, if_pos hlt]
  · have e : (if j < j0 then 6 - j else 7 - j) = 7 - j := if_neg hlt
    rw [e]
    have hm : 1 ≤ j := by omega
    interval_cases j
    · rw [hp.2.1, if_neg (by omega)]
    · rw [hp.2.2.1, if_neg (by omega)]
    · rw [hp.2.2.2.1, if_neg (by omega)]
    · rw [hp.2.2.2.2.1, if_neg (by omega)]
    · rw [hp.2.2.2.2.2.1, if_neg (by omega)]
    · rw [hp.2.2.2.2.2.2.1, if_neg (by omega)]
    · rw [hp.2.2.2.2.2.2.2, if_neg (by omega)]

/-- Byte `k` of the list of the five bytes of the loop. -/
theorem decodeBits_getD (cur : Nat → rmt_symbol_word_t) (k : Nat) (hk : k < 5) :
    (decodeBits cur).1.getD k 0 = byteOf cur k := by
  rw [decodeBits_data]
  interval_cases k <;> rfl

/-- Counterexample to C11 as stated: an acknowledgment of 150, a first payload
pair of 120 (bit 1), a second of 200 (out of range) and 38 pairs of 76 (bit 0).
The capture is validated and exactly one pulse is out of range, the error is
BadData, the raw byte 0 is 40 in hexadecimal, and its bit 7 is not the bit of
the first pulse. -/
theorem raw_bit_displaced_by_corrupted_pulse :
    (trainOfList (⟨80, 70⟩ :: (List.range 40).map
        fun i => ⟨50, if i = 0 then 70 else if i = 1 then 150 else 26⟩)).num_symbols = 41 ∧
      (∀ i : Nat, i < 40 → i ≠ 1 →
        pulseValid (trainOfList (⟨80, 70⟩ :: (List.range 40).map
          fun i => ⟨50, if i = 0 then 70 else if i = 1 then 150 else 26⟩)).received_symbols i) ∧
      pulseAt (trainOfList (⟨80, 70⟩ :: (List.range 40).map
          fun i => ⟨50, if i = 0 then 70 else if i = 1 then 150 else 26⟩)).received_symbols 2
        = 200 ∧
      (read (DHT22Clone.new 4 DHT22_AUTO) (Capture.received (trainOfList (⟨80, 70⟩ ::
          (List.range 40).map
            fun i => ⟨50, if i = 0 then 70 else if i = 1 then 150 else 26⟩)))).1.error
        = DHT22_BAD_DATA ∧
      (read (DHT22Clone.new 4 DHT22_AUTO) (Capture.received (trainOfList (⟨80, 70⟩ ::
          (List.range 40).map
            fun i => ⟨50, if i = 0 then 70 else if i = 1 then 150 else 26⟩)))).1.raw
        = [0x40, 0, 0, 0, 0] ∧
      ¬ (∀ i : Nat, i < 40 → i ≠ 1 →
        ((read (DHT22Clone.new 4 DHT22_AUTO) (Capture.received (trainOfList (⟨80, 70⟩ ::
          (List.range 40).map
            fun i => ⟨50, if i = 0 then 70 else if i = 1 then 150 else 26⟩)))).1.raw.getD
            (i / 8) 0).testBit (7 - i % 8) =
          decide (110 < pulseAt (trainOfList (⟨80, 70⟩ :: (List.range 40).map
            fun i => ⟨50, if i = 0 then 70 else if i = 1 then 150 else 26⟩)).received_symbols
            (i + 1))) := by
  refine ⟨by decide, by decide, by decide, by decide, by decide, ?_⟩
  intro h
  exact absurd (h 0 (by decide) (by decide)) (by decide)

/-- C11, amended: the raw payload under one corrupted pulse.  On a validated
capture in which exactly one payload pulse, at position `p`, is out of range,
`read` returns BadData and the raw payload holds the bit of every other pulse
`i`: at bit `7 - i mod 8` of byte `i div 8` when `i` lies in another byte than
`p` or after `p`, and one position lower, at bit `6 - i mod 8`, when `i` lies
before `p` in the byte of `p`, whose bit 7 is zero. -/
theorem read_raw_one_corrupted_pulse (self : DHT22Clone) (rx_data : rmt_rx_done_event_data_t)
    (p : Nat) (hp : p < 40)
    (hlen : rx_data.num_symbols = 41 ∨ rx_data.num_symbols = 42)
    (hack : 130 ≤ pulseAt rx_data.received_symbols 0 ∧ pulseAt rx_data.received_symbols 0 ≤ 180)
    (hbad : pulseAt rx_data.received_symbols (p + 1) ≤ 55 ∨
      145 ≤ pulseAt rx_data.received_symbols (p + 1))
    (hothers : ∀ i : Nat, i < 40 → i ≠ p → 55 < pulseAt rx_data.received_symbols (i + 1) ∧
      pulseAt rx_data.received_symbols (i + 1) < 145) :
    (read self (Capture.received rx_data)).1.error = DHT22_BAD_DATA ∧
      ((read self (Capture.received rx_data)).1.raw.getD (p / 8) 0).testBit 7 = false ∧
      ∀ i : Nat, i < 40 → i ≠ p →
        ((read self (Capture.received rx_data)).1.raw.getD (i / 8) 0).testBit
            (if i / 8 = p / 8 ∧ i < p then 6 - i % 8 else 7 - i % 8) =
          decide (110 < pulseAt rx_data.received_symbols (i + 1)) := by
  have hl : 41 ≤ rx_data.num_symbols ∧ rx_data.num_symbols ≤ 42 := by omega
  have hnp : ¬ pulseValid rx_data.received_symbols p := by
    unfold pulseValid; omega
  have hnv : ¬ ∀ i : Nat, i < 40 → pulseValid rx_data.received_symbols i := fun h => hnp (h p hp)
  have hpe : 8 * (p / 8) + p % 8 = p := by omega
  have hB := byteOf_testBit_one_invalid rx_data.received_symbols (p / 8) (p % 8) (by omega)
    (by rw [hpe]; exact hnp)
    (fun j hj hne => hothers (8 * (p / 8) + j) (by omega) (by omega))
  rw [read_received, decodeSymbols_error self._type rx_data hl hack, if_neg hnv,
    decodeSymbols_raw self._type rx_data hl hack]
  refine ⟨rfl, ?_, ?_⟩
  · rw [decodeBits_getD _ _ (by omega)]
    exact hB.1
  · intro i hi hne
    have hie : 8 * (i / 8) + i % 8 = i := by omega
    rw [decodeBits_getD _ _ (by omega)]
    by_cases hk : i / 8 = p / 8
    · have h := hB.2 (i % 8) (by omega) (by omega)
      rw [← hk, hie] at h
      rw [← h]
      congr 1
      by_cases hlt : i < p
      · rw [if_pos ⟨hk, hlt⟩, if_pos (by omega)]
      · rw [if_neg (fun hc => hlt hc.2), if_neg (by omega)]
    · rw [if_neg (fun hc => hk hc.1)]
      have h := byteOf_testBit_valid rx_data.received_symbols (i / 8)
        (fun j hj => hothers (8 * (i / 8) + j) (by omega) (by omega)) (i % 8) (by omega)
      rw [hie] at h
      exact h

/-- Witness of C11, amended: a payload pair of 200 at position 1 after a pair
of 120; the bit of the first pulse is at bit 6 of the raw byte 0. -/
theorem read_raw_one_corrupted_pulse_witness :
    (read (DHT22Clone.new 4 DHT22_AUTO) (Capture.received (trainOfList (⟨80, 70⟩ ::
        (List.range 40).map
          fun i => ⟨50, if i = 0 then 70 else if i = 1 then 150 else 26⟩)))).1.error
        = DHT22_BAD_DATA ∧
      ((read (DHT22Clone.new 4 DHT22_AUTO) (Capture.received (trainOfList (⟨80, 70⟩ ::
        (List.range 40).map
          fun i => ⟨50, if i = 0 then 70 else if i = 1 then 150 else 26⟩)))).1.raw.getD
          0 0).testBit 6 = true :=
  ⟨(read_raw_one_corrupted_pulse (DHT22Clone.new 4 DHT22_AUTO)
      (trainOfList (⟨80, 70⟩ :: (List.range 40).map
        fun i => ⟨50, if i = 0 then 70 else if i = 1 then 150 else 26⟩))
      1 (by decide) (by decide) (by decide) (by decide) (by decide)).1,
    ((read_raw_one_corrupted_pulse (DHT22Clone.new 4 DHT22_AUTO)
      (trainOfList (⟨80, 70⟩ :: (List.range 40).map
        fun i => ⟨50, if i = 0 then 70 else if i = 1 then 150 else 26⟩))
      1 (by decide) (by decide) (by decide) (by decide) (by decide)).2.2
      0 (by decide) (by decide)).trans (by decide)⟩

end DHT22
